import Mathlib

attribute [local semireducible] Rat.mul Rat.add Rat.sub Rat.inv Rat.ofScientific

/-!
# HexFleet simulation core — shallow embedding

A shallow embedding of the deterministic simulation core of the HexFleet
repository (`src/core/GameState.ts`, `src/core/Invasion.ts`,
`src/core/Reinforcement.ts`, `src/utils/hex.ts`), with theorems settling the
spec claims about movement, mining/depletion, the turn pipeline, invasions,
reinforcement, dismantle refunds, persistence, randomness and phase gating.

Modelling conventions:
* JavaScript numbers holding integer quantities (turn counters, metal
  balances, movement points, garrison values) are modelled as `Int`;
  quantities that are genuinely fractional in the source (asteroid
  `richness`, `yieldRemaining`, `totalYield`, ambient `Math.random()` draws)
  are modelled as `Rat`.  All concrete values exercised by the claims
  (`0.75`, `0.1`, …) are exact in both binary floating point and `Rat`,
  so the two agree on every computation a theorem below evaluates.
* `Record<string, T>` objects are modelled as insertion-ordered association
  lists (`List`), matching JavaScript's object-key iteration order;
  `Object.values` iteration is list order, in-place update is `List.map`
  guarded by the key, deletion is `List.filter`, insertion of a fresh key is
  `++ [·]`.
* Intel-log entries carry their `turn` and `kind`; the source additionally
  stores an `id` built from `Date.now()`/`Math.random()`, a timestamp, and a
  presentation string.  Those fields are ambient/presentation-only and no
  claim depends on them, so they are not modelled; what the theorems use is
  exactly *when* an entry is appended and the bounded-ring eviction.
* Fresh ids produced by `uid()` are passed in as explicit parameters
  (`newId`), since the source draws them from ambient time/randomness.
-/

namespace HexFleet

/-! ## Data model (`src/core/types.ts`) -/

inductive MetalTier
| T1 | T2 | T3
deriving DecidableEq, Repr

/-- String comparison on tier names: the source compares `miningTier`
values with `>` on the strings `"T1" < "T2" < "T3"`. -/
def MetalTier.toIdx : MetalTier → Nat
| .T1 => 0
| .T2 => 1
| .T3 => 2

def tierLt (a b : MetalTier) : Bool := a.toIdx < b.toIdx

structure TieredMetals where
  T1 : Int
  T2 : Int
  T3 : Int
deriving DecidableEq, Repr

structure Resources where
  tieredMetals : TieredMetals
  alloys : Int
  gas : Int
  crystals : Int
deriving DecidableEq, Repr

inductive GamePhase
| PLAYER | ENEMY
deriving DecidableEq, Repr

inductive FleetOwner
| PLAYER | ENEMY
deriving DecidableEq, Repr

inductive FleetRole
| MINER | COMBAT
deriving DecidableEq, Repr

/-- The `ShipType` enum; the source also force-casts `'STATION'` onto a ship in
`buildStation`, so the embedding includes it as a constructor. -/
inductive ShipType
| MINER | CORVETTE | FRIGATE | DESTROYER | CRUISER | BATTLESHIP | CARRIER | STATION
deriving DecidableEq, Repr

inductive SystemIntel
| UNKNOWN | SCANNED
deriving DecidableEq, Repr

inductive StarSystemType
| STAR | NEBULA | RUIN | ANOMALY
deriving DecidableEq, Repr

inductive IntelKind
| MOVE | SCAN | MINE | BUILD | DISMANTLE | ALERT | SYSTEM
deriving DecidableEq, Repr

structure HexCoord where
  q : Int
  r : Int
deriving DecidableEq, Repr

structure Asteroids where
  metalTier : MetalTier
  richness : Rat
  yieldRemaining : Rat
  totalYield : Rat
deriving DecidableEq, Repr

inductive PlanetController
| PLAYER | ENEMY | NEUTRAL | CONTESTED
deriving DecidableEq, Repr

def FleetOwner.toController : FleetOwner → PlanetController
| .PLAYER => .PLAYER
| .ENEMY => .ENEMY

/-- The faction opposite the attacker; the source computes
`invasion.attacker === 'PLAYER' ? 'ENEMY' : 'PLAYER'`. -/
def FleetOwner.opponent : FleetOwner → FleetOwner
| .PLAYER => .ENEMY
| .ENEMY => .PLAYER

structure PlanetDefense where
  control : PlanetController
  garrison : Int
  fortification : Int
  unrest : Int
deriving DecidableEq, Repr

structure Invasion where
  planetId : String
  attacker : FleetOwner
  invasionStrength : Int
  turnsOngoing : Int
deriving DecidableEq, Repr

structure Planet where
  controller : PlanetController
  groundTroops : Int
  defenses : Int
  population : Int
  defense : PlanetDefense
  invasion : Option Invasion
deriving DecidableEq, Repr

inductive StationOwner
| PLAYER | ENEMY | NEUTRAL
deriving DecidableEq, Repr

inductive StationType
| MINING | INDUSTRIAL | MILITARY | RESEARCH
deriving DecidableEq, Repr

inductive StationState
| FRIENDLY | ENEMY | DERELICT
deriving DecidableEq, Repr

structure Station where
  id : String
  name : String
  owner : StationOwner
  type : StationType
  state : StationState
  integrity : Int
  functional : Bool
deriving DecidableEq, Repr

structure StarSystem where
  id : String
  name : String
  coord : HexCoord
  seed : Int
  discovered : Bool
  type : StarSystemType
  tier : Int
  intel : SystemIntel
  asteroids : Option Asteroids
  station : Option Station
  planets : List (String × Planet)
deriving DecidableEq, Repr

structure Ship where
  id : String
  name : String
  type : ShipType
  integrity : Int
  morale : Int
  firepower : Int
  toughness : Int
  groundTroops : Int
  groundTroopCapacity : Int
  miningTier : Option MetalTier
  weapons : Option Int
  armor : Option Int
  buildCost : TieredMetals
deriving DecidableEq, Repr

structure Fleet where
  id : String
  name : String
  owner : FleetOwner
  role : FleetRole
  shipType : ShipType
  ships : List Ship
  location : String
  maxMoves : Int
  movesLeft : Int
  integrity : Int
  morale : Int
  miningTier : Option MetalTier
  groundTroops : Int
  groundTroopCapacity : Int
deriving DecidableEq, Repr

structure IntelEntry where
  turn : Int
  kind : IntelKind
deriving DecidableEq, Repr

structure GameState where
  version : Int
  turn : Int
  phase : GamePhase
  galaxy : List StarSystem
  fleets : List Fleet
  selectedSystemId : Option String
  selectedFleetId : Option String
  selectedSystemObject : Option (String × String)
  resources : Resources
  intelLog : List IntelEntry
deriving DecidableEq, Repr

/-! ## Helpers (`GameState.ts` lines 89–143) -/

def MOVES_PER_TURN : Int := 2

def MINER_YIELD_PER_TURN : MetalTier → Int
| .T1 => 2
| .T2 => 5
| .T3 => 9

def ensureTieredMetals : Option TieredMetals → TieredMetals
| some tm => tm
| none => ⟨0, 0, 0⟩

def canAfford (resources : Resources) (cost : TieredMetals) : Bool :=
  cost.T1 ≤ resources.tieredMetals.T1 ∧ cost.T2 ≤ resources.tieredMetals.T2 ∧
    cost.T3 ≤ resources.tieredMetals.T3

def payCost (resources : Resources) (cost : TieredMetals) : Resources :=
  { resources with tieredMetals :=
      ⟨resources.tieredMetals.T1 - cost.T1, resources.tieredMetals.T2 - cost.T2,
        resources.tieredMetals.T3 - cost.T3⟩ }

def addMetals (resources : Resources) (tier : MetalTier) (amount : Int) : Resources :=
  { resources with tieredMetals :=
      match tier with
      | .T1 => { resources.tieredMetals with T1 := resources.tieredMetals.T1 + amount }
      | .T2 => { resources.tieredMetals with T2 := resources.tieredMetals.T2 + amount }
      | .T3 => { resources.tieredMetals with T3 := resources.tieredMetals.T3 + amount } }

/-- The `pushIntel` helper: append an entry and keep the log bounded to 200. -/
def pushIntel (st : GameState) (kind : IntelKind) : GameState :=
  let l := st.intelLog ++ [⟨st.turn, kind⟩]
  { st with intelLog := if 200 < l.length then l.drop (l.length - 200) else l }

def getSystem (st : GameState) (id : String) : Option StarSystem :=
  st.galaxy.find? (fun s => s.id = id)

def getFleet (st : GameState) (id : String) : Option Fleet :=
  st.fleets.find? (fun f => f.id = id)

def systemCoord (st : GameState) (id : String) : Option HexCoord :=
  (getSystem st id).map (fun s => s.coord)

def resetMovesFor (st : GameState) (owner : FleetOwner) : GameState :=
  { st with fleets := st.fleets.map (fun f =>
      if f.owner = owner then { f with maxMoves := MOVES_PER_TURN, movesLeft := MOVES_PER_TURN }
      else f) }

/-! ## Hex geometry (`src/utils/hex.ts`) -/

def hexDistance (a b : HexCoord) : Int :=
  max |a.q - b.q| (max |a.r - b.r| |(a.q + a.r) - (b.q + b.r)|)

/-! ## Ship creation and fleet stats (`GameState.ts` lines 234–314) -/

def ShipType.displayName : ShipType → String
| .MINER => "MINER"
| .CORVETTE => "CORVETTE"
| .FRIGATE => "FRIGATE"
| .DESTROYER => "DESTROYER"
| .CRUISER => "CRUISER"
| .BATTLESHIP => "BATTLESHIP"
| .CARRIER => "CARRIER"
| .STATION => "STATION"

/-- The `baseCosts` table inside `createShip`.  `STATION` is never passed to
`createShip` in the source (the cast to `'STATION'` happens after creation),
so its row is a zero placeholder. -/
def baseCosts : ShipType → TieredMetals
| .MINER => ⟨8, 0, 0⟩
| .CORVETTE => ⟨10, 0, 0⟩
| .FRIGATE => ⟨15, 5, 0⟩
| .DESTROYER => ⟨0, 10, 2⟩
| .CRUISER => ⟨0, 15, 5⟩
| .BATTLESHIP => ⟨0, 0, 12⟩
| .CARRIER => ⟨0, 20, 8⟩
| .STATION => ⟨0, 0, 0⟩

/-- The `combatStats` table inside `createShip`: firepower, toughness,
groundTroops, groundTroopCapacity. -/
def combatStats : ShipType → Int × Int × Int × Int
| .MINER => (1, 2, 0, 0)
| .CORVETTE => (3, 3, 5, 10)
| .FRIGATE => (5, 4, 10, 20)
| .DESTROYER => (8, 6, 15, 30)
| .CRUISER => (12, 8, 20, 40)
| .BATTLESHIP => (20, 12, 30, 60)
| .CARRIER => (5, 10, 50, 100)
| .STATION => (0, 0, 0, 0)

def createShip (shipType : ShipType) (fleetId : String) (index : Nat) : Ship :=
  let stats := combatStats shipType
  { id := fleetId ++ "-ship-" ++ toString index
    name := shipType.displayName ++ "-" ++ toString (index + 1)
    type := shipType
    integrity := 100
    morale := 100
    firepower := stats.1
    toughness := stats.2.1
    groundTroops := stats.2.2.1
    groundTroopCapacity := stats.2.2.2
    miningTier := none
    weapons := if shipType ≠ .MINER then
        some (if shipType = .CARRIER then 6 else if shipType = .BATTLESHIP then 8 else 4)
      else none
    armor := if shipType ≠ .MINER then
        some (if shipType = .DESTROYER ∨ shipType = .BATTLESHIP then 6 else 4)
      else none
    buildCost := baseCosts shipType }

structure FleetStats where
  role : FleetRole
  shipType : ShipType
  integrity : Int
  morale : Int
  miningTier : Option MetalTier
  groundTroops : Int
  groundTroopCapacity : Int
deriving DecidableEq, Repr

/-- JavaScript `Math.round` on the non-negative averages the source feeds it. -/
def jsRound (x : Rat) : Int := (x + 1/2).floor

/-- Ship types in first-occurrence order: `Object.keys` insertion order of the
`shipCounts` accumulator. -/
def firstOccTypes (ships : List Ship) : List ShipType :=
  ships.foldl (fun acc s => if s.type ∈ acc then acc else acc ++ [s.type]) []

def countType (ships : List Ship) (t : ShipType) : Nat :=
  (ships.filter (fun s => s.type = t)).length

/-- The head of the stable descending sort of `shipCounts`: the
first-inserted type among those with maximal count. -/
def primaryShipType (ships : List Ship) : ShipType :=
  ((firstOccTypes ships).foldl (fun best t =>
      match best with
      | none => some t
      | some b => if countType ships b < countType ships t then some t else best) none).getD
    .CORVETTE

/-- The `reduce` picking the best miner tier: the accumulator starts at `T1`
(always truthy), so only the `s.miningTier > best` branch can fire. -/
def bestMinerTier (ships : List Ship) : MetalTier :=
  (ships.filter (fun s => s.type = .MINER)).foldl (fun best s =>
      match s.miningTier with
      | some t => if tierLt best t then t else best
      | none => best) .T1

def calculateFleetStats (ships : List Ship) : FleetStats :=
  if ships.isEmpty then
    { role := .COMBAT, shipType := .CORVETTE, integrity := 0, morale := 0,
      miningTier := none, groundTroops := 0, groundTroopCapacity := 0 }
  else
    let n : Rat := (ships.length : Int)
    let avgIntegrity := jsRound (((ships.foldl (fun a s => a + s.integrity) 0 : Int) : Rat) / n)
    let avgMorale := jsRound (((ships.foldl (fun a s => a + s.morale) 0 : Int) : Rat) / n)
    let groundTroops := ships.foldl (fun a s => a + s.groundTroops) 0
    let groundTroopCapacity := ships.foldl (fun a s => a + s.groundTroopCapacity) 0
    let hasMiners := ships.any (fun s => s.type = .MINER)
    { role := if hasMiners then .MINER else .COMBAT
      shipType := primaryShipType ships
      integrity := avgIntegrity
      morale := avgMorale
      miningTier := if hasMiners then some (bestMinerTier ships) else none
      groundTroops := groundTroops
      groundTroopCapacity := groundTroopCapacity }

/-! ## Bootstrap seed (`GameState.ts` lines 149–228, 316–356) -/

def seedGalaxy : List StarSystem :=
  [ { id := "SOL", name := "Sol", coord := ⟨0, 0⟩, seed := 1, discovered := true,
      type := .STAR, tier := 1, intel := .SCANNED,
      asteroids := some ⟨.T1, 0.75, 100, 1000⟩, station := none, planets := [] },
    { id := "ALPHA", name := "Alpha", coord := ⟨1, 0⟩, seed := 2, discovered := false,
      type := .STAR, tier := 1, intel := .UNKNOWN,
      asteroids := some ⟨.T2, 1, 100, 1500⟩, station := none, planets := [] },
    { id := "BETA", name := "Beta", coord := ⟨0, 1⟩, seed := 3, discovered := false,
      type := .NEBULA, tier := 1, intel := .UNKNOWN,
      asteroids := some ⟨.T1, 1.25, 100, 1200⟩, station := none, planets := [] },
    { id := "GAMMA", name := "Gamma", coord := ⟨-1, 1⟩, seed := 4, discovered := false,
      type := .RUIN, tier := 2, intel := .UNKNOWN,
      asteroids := none, station := none, planets := [] },
    { id := "DELTA", name := "Delta", coord := ⟨-1, 0⟩, seed := 5, discovered := false,
      type := .ANOMALY, tier := 2, intel := .UNKNOWN,
      asteroids := some ⟨.T3, 0.6, 100, 800⟩, station := none, planets := [] } ]

def seedFleets : List Fleet :=
  let minerShip := createShip .MINER "MINER-1" 0
  let enemyShip := createShip .CORVETTE "ENEMY-1" 0
  let minerStats := calculateFleetStats [minerShip]
  let enemyStats := calculateFleetStats [enemyShip]
  [ { id := "MINER-1", name := "Prospector-1", owner := .PLAYER, role := minerStats.role,
      shipType := minerStats.shipType, ships := [minerShip], location := "SOL",
      maxMoves := MOVES_PER_TURN, movesLeft := MOVES_PER_TURN,
      integrity := minerStats.integrity, morale := minerStats.morale,
      miningTier := minerStats.miningTier, groundTroops := minerStats.groundTroops,
      groundTroopCapacity := minerStats.groundTroopCapacity },
    { id := "ENEMY-1", name := "Raider-1", owner := .ENEMY, role := enemyStats.role,
      shipType := enemyStats.shipType, ships := [enemyShip], location := "DELTA",
      maxMoves := MOVES_PER_TURN, movesLeft := MOVES_PER_TURN,
      integrity := enemyStats.integrity, morale := enemyStats.morale,
      miningTier := none, groundTroops := enemyStats.groundTroops,
      groundTroopCapacity := enemyStats.groundTroopCapacity } ]

/-! ## Station building (`GameState.ts` lines 362–425).  The fresh
`STATION-${uid()}` id comes from ambient time/randomness, so it is passed in
as the `newId` parameter. -/

def buildStation (st : GameState) (atSystemId : String) (free : Bool) (newId : String) :
    Bool × GameState :=
  match getSystem st atSystemId with
  | none => (false, st)
  | some sys =>
    if st.phase ≠ .PLAYER then (false, pushIntel st .ALERT)
    else
      let stationCost : TieredMetals := ⟨10, 5, 2⟩
      if ¬free ∧ ¬canAfford st.resources stationCost then (false, pushIntel st .ALERT)
      else
        let st := if ¬free then { st with resources := payCost st.resources stationCost } else st
        let stationShip :=
          { createShip .CORVETTE newId 0 with name := "Station Module", type := .STATION }
        let stationStats := calculateFleetStats [stationShip]
        let newFleet : Fleet :=
          { id := newId, name := "Station-" ++ sys.name, owner := .PLAYER,
            role := stationStats.role, shipType := stationStats.shipType,
            ships := [stationShip], location := atSystemId, maxMoves := 0, movesLeft := 0,
            integrity := stationStats.integrity, morale := stationStats.morale,
            miningTier := stationStats.miningTier, groundTroops := stationStats.groundTroops,
            groundTroopCapacity := stationStats.groundTroopCapacity }
        let newStation : Station :=
          { id := newId, name := "Station-" ++ sys.name, owner := .PLAYER, type := .MINING,
            state := .FRIENDLY, integrity := 100, functional := true }
        let st := { st with fleets := st.fleets ++ [newFleet],
                            galaxy := st.galaxy.map (fun s =>
                              if s.id = atSystemId then { s with station := some newStation }
                              else s) }
        (true, pushIntel st .BUILD)

/-- Bootstrap (`bootstrapGameState`, lines 431–457): fresh root state, one SYSTEM intel
entry, then a free starter station at SOL.  The station's uid-generated id is
modelled by the fixed placeholder `"STATION-0"`; no claim inspects it. -/
def bootstrapGameState : GameState :=
  let st : GameState :=
    { version := 1, turn := 1, phase := .PLAYER, galaxy := seedGalaxy, fleets := seedFleets,
      selectedSystemId := some "SOL", selectedFleetId := some "MINER-1",
      selectedSystemObject := none,
      resources := { tieredMetals := ensureTieredMetals none, alloys := 0, gas := 0,
                     crystals := 0 },
      intelLog := [] }
  let st := pushIntel st .SYSTEM
  (buildStation st "SOL" true "STATION-0").2

/-! ## Selection (`GameState.ts` lines 468–487) -/

def selectSystem (st : GameState) (systemId : String) : GameState :=
  match getSystem st systemId with
  | none => st
  | some sys =>
    let st := { st with selectedSystemId := some systemId }
    if sys.intel = .UNKNOWN then pushIntel st .SCAN else pushIntel st .SYSTEM

def selectFleet (st : GameState) (fleetId : String) : GameState :=
  match getFleet st fleetId with
  | none => st
  | some f =>
    if f.owner ≠ .PLAYER then st
    else pushIntel { st with selectedFleetId := some fleetId } .SYSTEM

/-! ## Movement (`GameState.ts` lines 574–611) -/

def moveFleet (st : GameState) (fleetId targetSystemId : String) : Bool × GameState :=
  match getFleet st fleetId, getSystem st targetSystemId with
  | some f, some target =>
    if st.phase ≠ .PLAYER then (false, pushIntel st .ALERT)
    else if f.owner ≠ .PLAYER then (false, st)
    else if f.movesLeft ≤ 0 then (false, pushIntel st .ALERT)
    else
      match systemCoord st f.location with
      | none => (false, st)
      | some fromCoord =>
        if hexDistance fromCoord target.coord ≠ 1 then (false, pushIntel st .ALERT)
        else
          let st := { st with fleets := st.fleets.map (fun g =>
              if g.id = fleetId then
                { g with location := targetSystemId, movesLeft := g.movesLeft - 1 }
              else g) }
          let st :=
            if target.intel = .UNKNOWN then
              pushIntel
                { st with galaxy := st.galaxy.map (fun s =>
                    if s.id = targetSystemId then
                      { s with intel := .SCANNED, discovered := true }
                    else s) } .SCAN
            else st
          (true, pushIntel st .MOVE)
  | _, _ => (false, st)

/-! ## Blueprints and fleet building (`GameState.ts` lines 53–68, 617–662) -/

structure Blueprint where
  key : String
  name : String
  shipType : ShipType
  cost : TieredMetals
deriving DecidableEq, Repr

def BLUEPRINTS : List Blueprint :=
  [ { key := "CORVETTE", name := "Corvette", shipType := .CORVETTE, cost := ⟨10, 0, 0⟩ },
    { key := "FRIGATE", name := "Frigate", shipType := .FRIGATE, cost := ⟨15, 5, 0⟩ },
    { key := "DESTROYER", name := "Destroyer", shipType := .DESTROYER, cost := ⟨0, 10, 2⟩ } ]

def blueprintByKey (key : String) : Option Blueprint :=
  BLUEPRINTS.find? (fun b => b.key = key)

/-- JavaScript `String(n).padStart(2, '0')`. -/
def pad2 (n : Nat) : String :=
  if n < 10 then "0" ++ toString n else toString n

def buildFleet (st : GameState) (blueprintKey atSystemId : String) (newId : String) :
    Bool × GameState :=
  match blueprintByKey blueprintKey with
  | none => (false, st)
  | some bp =>
    match getSystem st atSystemId with
    | none => (false, st)
    | some _ =>
      if st.phase ≠ .PLAYER then (false, pushIntel st .ALERT)
      else if ¬canAfford st.resources bp.cost then (false, pushIntel st .ALERT)
      else
        let st := { st with resources := payCost st.resources bp.cost }
        let newShip := createShip bp.shipType newId 0
        let fleetStats := calculateFleetStats [newShip]
        let newFleet : Fleet :=
          { id := newId, name := bp.name ++ "-" ++ pad2 st.fleets.length, owner := .PLAYER,
            role := fleetStats.role, shipType := fleetStats.shipType, ships := [newShip],
            location := atSystemId, maxMoves := MOVES_PER_TURN, movesLeft := MOVES_PER_TURN,
            integrity := fleetStats.integrity, morale := fleetStats.morale,
            miningTier := fleetStats.miningTier, groundTroops := fleetStats.groundTroops,
            groundTroopCapacity := fleetStats.groundTroopCapacity }
        (true, pushIntel { st with fleets := st.fleets ++ [newFleet] } .BUILD)

/-! ## Fleet dismantling (`GameState.ts` lines 668–709) -/

def dismantleRefund (fleet : Fleet) : TieredMetals :=
  fleet.ships.foldl (fun acc s =>
      ⟨acc.T1 + Int.fdiv s.buildCost.T1 2, acc.T2 + Int.fdiv s.buildCost.T2 2,
        acc.T3 + Int.fdiv s.buildCost.T3 2⟩) ⟨0, 0, 0⟩

def dismantleFleet (st : GameState) (fleetId : String) : Bool × GameState :=
  match getFleet st fleetId with
  | none => (false, pushIntel st .ALERT)
  | some fleet =>
    if fleet.owner ≠ .PLAYER then (false, pushIntel st .ALERT)
    else if st.phase ≠ .PLAYER then (false, pushIntel st .ALERT)
    else
      let recovered := dismantleRefund fleet
      let tm := st.resources.tieredMetals
      let st := { st with resources := { st.resources with tieredMetals :=
          ⟨tm.T1 + recovered.T1, tm.T2 + recovered.T2, tm.T3 + recovered.T3⟩ } }
      let st := { st with fleets := st.fleets.filter (fun f => f.id ≠ fleetId) }
      let st :=
        if st.selectedFleetId = some fleetId then { st with selectedFleetId := none } else st
      (true, pushIntel st .DISMANTLE)

/-! ## Mining tick (`GameState.ts` lines 715–807) -/

/-- The field after one extraction of `gained` units:
`yieldRemaining -= (gained / totalYield) * 100`, floored at 0. -/
def mineUpdatedAsteroid (a : Asteroids) (gained : Int) : Asteroids :=
  { a with yieldRemaining := max 0 (a.yieldRemaining - ((gained : Rat) / a.totalYield) * 100) }

/-- The state mutation of a successful mining iteration: deplete the field
at `loc` and credit `gained` units of the field's `metalTier`, plus one MINE
intel entry. -/
def mineApply (acc : GameState) (loc : String) (a : Asteroids) (gained : Int) : GameState :=
  let acc := { acc with galaxy := acc.galaxy.map (fun (s : StarSystem) =>
      if s.id = loc then { s with asteroids := some (mineUpdatedAsteroid a gained) } else s) }
  pushIntel { acc with resources := addMetals acc.resources a.metalTier gained } .MINE

/-- One iteration of the `applyMiningForPlayerTurn` loop body for fleet `f`,
acting on the accumulated state (in-place galaxy/resource mutation means a
later miner on the same field sees the earlier depletion). -/
def mineFleetStep (acc : GameState) (f : Fleet) : GameState :=
  if f.owner ≠ .PLAYER then acc
  else if f.role ≠ .MINER then acc
  else
    match getSystem acc f.location with
    | none => acc
    | some sys =>
      match sys.asteroids with
      | none => acc
      | some a =>
        if a.yieldRemaining ≤ 0 then acc
        else
          let base := MINER_YIELD_PER_TURN (f.miningTier.getD .T1)
          let gained : Int := max 0 ((base : Rat) * a.richness).floor
          if gained ≤ 0 then acc
          else mineApply acc f.location a gained

/-- The loop iterates the snapshot `Object.values(state.fleets)`; the body
never modifies `fleets`, only galaxy/resources/log. -/
def applyMiningForPlayerTurn (st : GameState) : GameState :=
  st.fleets.foldl mineFleetStep st

def mineAsteroid (st : GameState) (systemId asteroidObjectId : String) : Bool × GameState :=
  match getSystem st systemId with
  | none => (false, st)
  | some sys =>
    if st.phase ≠ .PLAYER then (false, pushIntel st .ALERT)
    else
      match st.fleets.find? (fun f =>
          f.owner = .PLAYER ∧ f.role = .MINER ∧ f.location = systemId) with
      | none => (false, pushIntel st .ALERT)
      | some miner =>
        match sys.asteroids with
        | none => (false, pushIntel st .ALERT)
        | some a =>
          let base := MINER_YIELD_PER_TURN (miner.miningTier.getD .T1)
          let gained : Int := max 0 ((base : Rat) * a.richness).floor
          if gained ≤ 0 then (false, pushIntel st .ALERT)
          else (true, pushIntel { st with resources := addMetals st.resources a.metalTier gained } .MINE)

/-! ## Enemy phase (`GameState.ts` lines 813–848) -/

/-- Loop body for one enemy fleet: reset its moves, then take the first
strictly-improving adjacent system ordered by galaxy insertion order
(the `distToSol < bestDist` strict comparison starting from `Infinity`). -/
def enemyMoveStep (acc : GameState) (solCoord : HexCoord) (fid : String) : GameState :=
  match getFleet acc fid with
  | none => acc
  | some f =>
    let acc := { acc with fleets := acc.fleets.map (fun g =>
        if g.id = fid then { g with movesLeft := g.maxMoves } else g) }
    match getSystem acc f.location with
    | none => acc
    | some fromSys =>
      let best := acc.galaxy.foldl (fun (best : Option (String × Int)) s =>
          if hexDistance fromSys.coord s.coord ≠ 1 then best
          else
            let distToSol := hexDistance s.coord solCoord
            match best with
            | none => some (s.id, distToSol)
            | some (_, bd) => if distToSol < bd then some (s.id, distToSol) else best) none
      match best with
      | none => acc
      | some (bestId, _) =>
        let acc := { acc with fleets := acc.fleets.map (fun g =>
            if g.id = fid then { g with location := bestId, movesLeft := g.movesLeft - 1 }
            else g) }
        pushIntel acc .MOVE

def enemyPhaseStep (st : GameState) : GameState :=
  let enemyIds := (st.fleets.filter (fun f => f.owner = .ENEMY)).map (fun f => f.id)
  if enemyIds.isEmpty then st
  else
    match getSystem st "SOL" with
    | none => st
    | some sol => enemyIds.foldl (fun acc fid => enemyMoveStep acc sol.coord fid) st

/-! ## Turn summary and end turn (`GameState.ts` lines 1126–1190) -/

def addTier (tm : TieredMetals) (tier : MetalTier) (amount : Int) : TieredMetals :=
  match tier with
  | .T1 => { tm with T1 := tm.T1 + amount }
  | .T2 => { tm with T2 := tm.T2 + amount }
  | .T3 => { tm with T3 := tm.T3 + amount }

def turnSummaryGains (st : GameState) : TieredMetals :=
  st.fleets.foldl (fun acc f =>
      if f.owner = .PLAYER ∧ f.role = .MINER then
        match getSystem st f.location with
        | some sys =>
          match sys.asteroids with
          | some a =>
            let gained : Int :=
              max 0 ((MINER_YIELD_PER_TURN (f.miningTier.getD .T1) : Rat) * a.richness).floor
            if 0 < gained then addTier acc a.metalTier gained else acc
          | none => acc
        | none => acc
      else acc) ⟨0, 0, 0⟩

/-- The summary block at the top of `endTurn`: one SYSTEM header entry, plus
a MINE entry when any tier gained; `fleetsMoved` and `enemyActions` are never
populated anywhere in the source, so their conditional pushes never fire. -/
def turnSummaryLog (st : GameState) : GameState :=
  let gains := turnSummaryGains st
  let st := pushIntel st .SYSTEM
  if 0 < gains.T1 ∨ 0 < gains.T2 ∨ 0 < gains.T3 then pushIntel st .MINE else st

def endTurn (st : GameState) : GameState :=
  if st.phase ≠ .PLAYER then st
  else
    let st := turnSummaryLog st
    let st := applyMiningForPlayerTurn st
    let st := pushIntel (resetMovesFor { st with phase := .ENEMY } .ENEMY) .SYSTEM
    let st := enemyPhaseStep st
    pushIntel (resetMovesFor { st with phase := .PLAYER, turn := st.turn + 1 } .PLAYER) .SYSTEM

/-- The `advanceTurn` action (lines 1099–1120).  The auto-end `setTimeout` callback in
the ENEMY branch is asynchronous presentation-side scheduling and runs as a
separate later call, so it is not part of this synchronous step. -/
def advanceTurn (st : GameState) : GameState :=
  if st.phase = .PLAYER then endTurn st
  else pushIntel (resetMovesFor { st with phase := .PLAYER, turn := st.turn + 1 } .PLAYER) .SYSTEM

/-! ## Persistence (`GameState.ts` lines 1196–1232)

The save slot holds a JSON string.  `loadGame` is modelled over the outcome
of `JSON.parse` on that string: `junk` when parsing throws (the `catch`
branch), `nullish` when it parses to a falsy value (`!parsed`), and
`payload p` for a parsed object whose shape `ParsedSave` mirrors — the three
fields the source validates (`galaxy`, `fleets`, `resources`) and the nested
`tieredMetals` are `Option`s, the rest are carried through unvalidated.
A parsed object missing `intelLog` would make the source assign `state` and
then throw inside `pushIntel`; that shape is outside every validation
failure claim C1 enumerates and is not modelled (`intelLog` is total). -/

structure PResources where
  tieredMetals : Option TieredMetals
  alloys : Int
  gas : Int
  crystals : Int
deriving DecidableEq, Repr

structure ParsedSave where
  version : Int
  turn : Int
  phase : GamePhase
  galaxy : Option (List StarSystem)
  fleets : Option (List Fleet)
  selectedSystemId : Option String
  selectedFleetId : Option String
  selectedSystemObject : Option (String × String)
  resources : Option PResources
  intelLog : List IntelEntry
deriving DecidableEq, Repr

inductive StoredPayload
| junk
| nullish
| payload (p : ParsedSave)
deriving DecidableEq, Repr

/-- Serialization round trip `JSON.parse(JSON.stringify(state))`: every field present. -/
def toParsedSave (st : GameState) : ParsedSave :=
  { version := st.version, turn := st.turn, phase := st.phase, galaxy := some st.galaxy,
    fleets := some st.fleets, selectedSystemId := st.selectedSystemId,
    selectedFleetId := st.selectedFleetId, selectedSystemObject := st.selectedSystemObject,
    resources := some { tieredMetals := some st.resources.tieredMetals,
                        alloys := st.resources.alloys, gas := st.resources.gas,
                        crystals := st.resources.crystals },
    intelLog := st.intelLog }

def loadGame (st : GameState) (stored : Option StoredPayload) : Bool × GameState :=
  match stored with
  | none => (false, pushIntel st .ALERT)
  | some .junk => (false, pushIntel st .ALERT)
  | some .nullish => (false, pushIntel st .ALERT)
  | some (.payload p) =>
    if p.version ≠ 1 then (false, pushIntel st .ALERT)
    else
      match p.galaxy, p.fleets, p.resources with
      | some g, some fl, some r =>
        let newSt : GameState :=
          { version := p.version, turn := p.turn, phase := p.phase, galaxy := g, fleets := fl,
            selectedSystemId := p.selectedSystemId, selectedFleetId := p.selectedFleetId,
            selectedSystemObject := p.selectedSystemObject,
            resources := { tieredMetals := ensureTieredMetals r.tieredMetals,
                           alloys := r.alloys, gas := r.gas, crystals := r.crystals },
            intelLog := p.intelLog }
        (true, pushIntel newSt .SYSTEM)
      | _, _, _ => (false, pushIntel st .ALERT)

/-! ## Planets (`GameState.ts` lines 1250–1349) -/

def findPlanetIn (sys : StarSystem) (planetId : String) : Option Planet :=
  (sys.planets.find? (fun pr => pr.1 = planetId)).map (fun pr => pr.2)

/-- First system (galaxy order) holding `planetId`, as in the
`for … of Object.values(state.galaxy)` search loops. -/
def findPlanet (st : GameState) (planetId : String) : Option (String × Planet) :=
  (st.galaxy.find? (fun sys => (findPlanetIn sys planetId).isSome)).bind
    (fun sys => (findPlanetIn sys planetId).map (fun p => (sys.id, p)))

def updatePlanet (st : GameState) (sysId planetId : String) (p : Planet) : GameState :=
  { st with galaxy := st.galaxy.map (fun (s : StarSystem) =>
      if s.id = sysId then
        { s with planets := s.planets.map (fun pr => if pr.1 = planetId then (planetId, p) else pr) }
      else s) }

def upsertPlanet (planets : List (String × Planet)) (planetId : String) (p : Planet) :
    List (String × Planet) :=
  if (planets.find? (fun pr => pr.1 = planetId)).isSome then
    planets.map (fun pr => if pr.1 = planetId then (planetId, p) else pr)
  else planets ++ [(planetId, p)]

/-- The `createPlanet` action: the population is drawn from the ambient global random
source — `Math.floor(Math.random() * 10000) + 1000` — so the draw is an
explicit `ambientRandom` input here.  The source also assigns a planet object
without the `defense` field `types.ts` requires (a latent type violation
leaving it `undefined` at runtime); it is modelled as a zeroed record, which
no theorem below inspects. -/
def createPlanet (st : GameState) (systemId planetId : String) (controller : PlanetController)
    (ambientRandom : Rat) : GameState :=
  match getSystem st systemId with
  | none => st
  | some _ =>
    let p : Planet :=
      { controller := controller,
        groundTroops := if controller = .NEUTRAL then 0 else 50,
        defenses := if controller = .NEUTRAL then 20 else 40,
        population := (ambientRandom * 10000).floor + 1000,
        defense := ⟨.NEUTRAL, 0, 0, 0⟩,
        invasion := none }
    { st with galaxy := st.galaxy.map (fun (s : StarSystem) =>
        if s.id = systemId then { s with planets := upsertPlanet s.planets planetId p } else s) }

def calculateFleetStrength (fleet : Fleet) : Int :=
  fleet.ships.foldl (fun total s => total + s.firepower + s.toughness) 0

def updateFleetTroops (st : GameState) (fleetId : String) (troops : Int) : GameState :=
  { st with fleets := st.fleets.map (fun g =>
      if g.id = fleetId then { g with groundTroops := troops } else g) }

/-- The `invadePlanet` action: the one-shot probabilistic battle.  The four
`Math.random()` calls, in evaluation order (attacker roll, defender roll,
then the two per-branch loss rolls), are the explicit inputs `r1`–`r4`. -/
def invadePlanet (st : GameState) (systemId planetId attackerFleetId : String)
    (r1 r2 r3 r4 : Rat) : Bool × GameState :=
  match getSystem st systemId, getFleet st attackerFleetId with
  | some sys, some fleet =>
    match findPlanetIn sys planetId with
    | none => (false, st)
    | some planet =>
      if fleet.location ≠ systemId then (false, st)
      else if fleet.role ≠ .COMBAT then (false, st)
      else
        let attacker := fleet.owner
        let defender := planet.controller
        if attacker.toController = defender then (false, st)
        else
          let attackerStrength : Int := calculateFleetStrength fleet + fleet.groundTroops
          let defenderStrength : Int := planet.defenses + planet.groundTroops
          let attackerRoll : Rat := r1 * (attackerStrength : Rat)
          let defenderRoll : Rat := r2 * (defenderStrength : Rat)
          if defenderRoll < attackerRoll then
            let attackerLosses : Int := (r3 * 0.3 * (fleet.groundTroops : Rat)).floor
            let defenderLosses : Int := (r4 * 0.8 * (planet.groundTroops : Rat)).floor
            let fleetTroops := max 0 (fleet.groundTroops - attackerLosses)
            let planetTroops := max 0 (planet.groundTroops - defenderLosses)
            let occupationTroops := min fleetTroops 30
            let p := { planet with groundTroops := planetTroops + occupationTroops,
                                   controller := attacker.toController,
                                   defenses := max 0 (planet.defenses - 20) }
            let st := updatePlanet st systemId planetId p
            let st := updateFleetTroops st attackerFleetId (fleetTroops - occupationTroops)
            (true, pushIntel st .SYSTEM)
          else
            let attackerLosses : Int := (r3 * 0.5 * (fleet.groundTroops : Rat)).floor
            let defenderLosses : Int := (r4 * 0.2 * (planet.groundTroops : Rat)).floor
            let p := { planet with groundTroops := max 0 (planet.groundTroops - defenderLosses) }
            let st := updatePlanet st systemId planetId p
            let st := updateFleetTroops st attackerFleetId (max 0 (fleet.groundTroops - attackerLosses))
            (false, pushIntel st .SYSTEM)
  | _, _ => (false, st)

/-- The `reinforcePlanet` variant in `GameState.ts` (lines 1328–1344): troop transfer
from a stationed fleet. -/
def reinforcePlanetFromFleet (st : GameState) (systemId planetId fleetId : String) :
    Bool × GameState :=
  match getSystem st systemId, getFleet st fleetId with
  | some sys, some fleet =>
    match findPlanetIn sys planetId with
    | none => (false, st)
    | some planet =>
      if fleet.location ≠ systemId then (false, st)
      else if fleet.owner.toController ≠ planet.controller then (false, st)
      else
        let transferTroops := min fleet.groundTroops 20
        let st := updateFleetTroops st fleetId (fleet.groundTroops - transferTroops)
        let st := updatePlanet st systemId planetId
          { planet with groundTroops := planet.groundTroops + transferTroops }
        (true, pushIntel st .SYSTEM)
  | _, _ => (false, st)

/-! ## Invasion engine (`src/core/Invasion.ts`) -/

def startInvasion (st : GameState) (planetId : String) (strength : Int) (attacker : FleetOwner) :
    Bool × GameState :=
  match findPlanet st planetId with
  | none => (false, pushIntel st .ALERT)
  | some (sysId, planet) =>
    if planet.invasion.isSome then (false, pushIntel st .ALERT)
    else if planet.defense.control = attacker.toController then (false, pushIntel st .ALERT)
    else if strength ≤ 0 then (false, pushIntel st .ALERT)
    else
      let p := { planet with
        invasion := some { planetId := planetId, attacker := attacker,
                           invasionStrength := strength, turnsOngoing := 0 },
        defense := { planet.defense with control := .CONTESTED },
        controller := .CONTESTED }
      (true, pushIntel (updatePlanet st sysId planetId p) .ALERT)

/-- One deterministic attrition tick (`resolveInvasionTick`): returns the
updated planet and the kind of intel entry pushed (if any). -/
def resolveInvasionTick (p : Planet) : Planet × Option IntelKind :=
  match p.invasion with
  | none => (p, none)
  | some inv =>
    let inv := { inv with turnsOngoing := inv.turnsOngoing + 1 }
    let attackDamage := max 1 (inv.invasionStrength - p.defense.fortification)
    let defenseDamage := max 1 p.defense.garrison
    let d : PlanetDefense := { p.defense with garrison := max 0 (p.defense.garrison - attackDamage) }
    let inv := { inv with invasionStrength := max 0 (inv.invasionStrength - defenseDamage) }
    let d : PlanetDefense := { d with unrest := d.unrest + 1 }
    if d.garrison ≤ 0 then
      let c := inv.attacker.toController
      let d2 := { d with control := c, garrison := max 1 (Int.fdiv inv.invasionStrength 2),
                         unrest := max 0 (d.unrest - 2) }
      ({ p with controller := c, defense := d2, invasion := none }, some .ALERT)
    else if inv.invasionStrength ≤ 0 then
      let c := inv.attacker.opponent.toController
      let d2 := { d with control := c, unrest := max 0 (d.unrest - 3) }
      ({ p with controller := c, defense := d2, invasion := none }, some .ALERT)
    else
      ({ p with defense := d, invasion := some inv }, some .SYSTEM)

/-- The `resolveInvasions` pass: collect every (system, planet) pair with an active
invasion, then resolve each in collection order. -/
def resolveInvasions (st : GameState) : GameState :=
  let targets := st.galaxy.foldl (fun acc (sys : StarSystem) =>
      acc ++ (sys.planets.filter (fun pr => pr.2.invasion.isSome)).map (fun pr => (sys.id, pr.1)))
    ([] : List (String × String))
  targets.foldl (fun acc pr =>
      match (getSystem acc pr.1).bind (fun sys => findPlanetIn sys pr.2) with
      | none => acc
      | some p =>
        let r := resolveInvasionTick p
        let acc := updatePlanet acc pr.1 pr.2 r.1
        match r.2 with
        | some k => pushIntel acc k
        | none => acc) st

/-! ## Reinforcement engine (`src/core/Reinforcement.ts`) -/

def reinforcePlanet (st : GameState) (planetId : String) (amount : Int) (owner : FleetOwner) :
    Bool × GameState :=
  match findPlanet st planetId with
  | none => (false, pushIntel st .ALERT)
  | some (sysId, planet) =>
    if planet.defense.control ≠ owner.toController then (false, pushIntel st .ALERT)
    else if amount ≤ 0 then (false, pushIntel st .ALERT)
    else
      let d := { planet.defense with garrison := planet.defense.garrison + amount }
      let d := { d with unrest := max 0 (d.unrest - Int.fdiv amount 10) }
      let p := { planet with defense := d, groundTroops := planet.groundTroops + amount }
      (true, pushIntel (updatePlanet st sysId planetId p) .SYSTEM)

/-! ## Public API as a transition system

The world is the in-memory root state plus the external save slot
(`localStorage` under the fixed key).  The action alphabet covers every
exported operation of the core that mutates the game state; the remaining
exports are read-only getters, and the real-time-variant functions
(`updateRealTimeGame`, `startFleetMovement`, `setGameSpeed`,
`setTurnConfig`) mutate module-level tick bookkeeping and fleet positions
but contain no assignment to `state.phase`, which is what claim C10 is
about.  Fresh uid-based ids and ambient `Math.random()` draws appear as
action parameters. -/

structure World where
  state : GameState
  store : Option StoredPayload
deriving DecidableEq

inductive Action
| moveFleet (fleetId targetId : String)
| buildFleet (key sysId newId : String)
| buildStation (sysId : String) (free : Bool) (newId : String)
| dismantleFleet (fleetId : String)
| mineAsteroid (sysId objId : String)
| applyMining
| selectSystem (id : String)
| selectFleet (id : String)
| endTurn
| advanceTurn
| saveGame
| loadGame
| newGame
| reinforcePlanet (planetId : String) (amount : Int) (owner : FleetOwner)
| reinforceFromFleet (sysId planetId fleetId : String)
| startInvasion (planetId : String) (strength : Int) (attacker : FleetOwner)
| resolveInvasions
| createPlanet (sysId planetId : String) (c : PlanetController) (rand : Rat)
| invadePlanet (sysId planetId fleetId : String) (r1 r2 r3 r4 : Rat)

/-- Step function; for `saveGame`, the payload is serialized before the SAVE intel entry is
pushed, so the stored snapshot does not contain that entry. -/
def stepAction (w : World) : Action → World
| .moveFleet f t => { w with state := (moveFleet w.state f t).2 }
| .buildFleet k s n => { w with state := (buildFleet w.state k s n).2 }
| .buildStation s fr n => { w with state := (buildStation w.state s fr n).2 }
| .dismantleFleet f => { w with state := (dismantleFleet w.state f).2 }
| .mineAsteroid s o => { w with state := (mineAsteroid w.state s o).2 }
| .applyMining => { w with state := applyMiningForPlayerTurn w.state }
| .selectSystem i => { w with state := selectSystem w.state i }
| .selectFleet i => { w with state := selectFleet w.state i }
| .endTurn => { w with state := endTurn w.state }
| .advanceTurn => { w with state := advanceTurn w.state }
| .saveGame => { state := pushIntel w.state .SYSTEM,
                 store := some (.payload (toParsedSave w.state)) }
| .loadGame => { w with state := (loadGame w.state w.store).2 }
| .newGame => { w with state := bootstrapGameState }
| .reinforcePlanet p a o => { w with state := (reinforcePlanet w.state p a o).2 }
| .reinforceFromFleet s p f => { w with state := (reinforcePlanetFromFleet w.state s p f).2 }
| .startInvasion p s a => { w with state := (startInvasion w.state p s a).2 }
| .resolveInvasions => { w with state := resolveInvasions w.state }
| .createPlanet s p c r => { w with state := createPlanet w.state s p c r }
| .invadePlanet s p f r1 r2 r3 r4 => { w with state := (invadePlanet w.state s p f r1 r2 r3 r4).2 }

/-- The world right after bootstrap: fresh state, empty save slot. -/
def initWorld : World := ⟨bootstrapGameState, none⟩

/-- Worlds reachable from bootstrap through the public API. -/
inductive Reachable : World → Prop
| init : Reachable initWorld
| step (w : World) (a : Action) : Reachable w → Reachable (stepAction w a)

/-! ## Derived read helpers and concrete fixtures used by the theorems -/

/-- The asteroid field of the (first) system with the given id. -/
def asteroidsOf (st : GameState) (sysId : String) : Option Asteroids :=
  (getSystem st sysId).bind (fun s => s.asteroids)

/-- The invariant the invasion engine maintains (spec §3): a planet with an
active invasion record is in CONTESTED control. -/
def InvasionContestedInv (st : GameState) : Prop :=
  ∀ sys ∈ st.galaxy, ∀ pr ∈ sys.planets, (pr.2 : Planet).invasion.isSome →
    pr.2.defense.control = PlanetController.CONTESTED

/-- C5 fixture: the siege start state named by the spec —
`garrison=10, fortification=2, invasionStrength=20`. -/
def siegePlanet : Planet :=
  { controller := .CONTESTED, groundTroops := 10, defenses := 0, population := 0,
    defense := { control := .CONTESTED, garrison := 10, fortification := 2, unrest := 0 },
    invasion := some { planetId := "P1", attacker := .PLAYER, invasionStrength := 20,
                       turnsOngoing := 0 } }

/-- C6 fixture: a player-held, uncontested planet. -/
def c6Planet : Planet :=
  { controller := .PLAYER, groundTroops := 5, defenses := 10, population := 1000,
    defense := { control := .PLAYER, garrison := 5, fortification := 1, unrest := 7 },
    invasion := none }

def c6State : GameState :=
  { version := 1, turn := 3, phase := .PLAYER,
    galaxy := [{ id := "HOME", name := "Home", coord := ⟨0, 0⟩, seed := 7, discovered := true,
                 type := .STAR, tier := 1, intel := .SCANNED, asteroids := none,
                 station := none, planets := [("P1", c6Planet)] }],
    fleets := [], selectedSystemId := none, selectedFleetId := none,
    selectedSystemObject := none,
    resources := ⟨⟨0, 0, 0⟩, 0, 0, 0⟩, intelLog := [] }

/-- C7 fixture: enough metals to build a Frigate (`T1:15, T2:5`). -/
def c7State : GameState :=
  { version := 1, turn := 1, phase := .PLAYER,
    galaxy := [{ id := "YARD", name := "Yard", coord := ⟨0, 0⟩, seed := 1, discovered := true,
                 type := .STAR, tier := 1, intel := .SCANNED, asteroids := none,
                 station := none, planets := [] }],
    fleets := [], selectedSystemId := none, selectedFleetId := none,
    selectedSystemObject := none,
    resources := ⟨⟨20, 9, 0⟩, 0, 0, 0⟩, intelLog := [] }

/-- C2 fixture: a fully depleted T1 field (`yieldRemaining = 0`) with a
player miner fleet stationed on it. -/
def c2State : GameState :=
  { version := 1, turn := 4, phase := .PLAYER,
    galaxy := [{ id := "FIELD", name := "Field", coord := ⟨0, 0⟩, seed := 9, discovered := true,
                 type := .STAR, tier := 1, intel := .SCANNED,
                 asteroids := some ⟨.T1, 0.75, 0, 1000⟩, station := none, planets := [] }],
    fleets := [{ id := "M-1", name := "Digger", owner := .PLAYER, role := .MINER,
                 shipType := .MINER, ships := [createShip .MINER "M-1" 0], location := "FIELD",
                 maxMoves := 2, movesLeft := 2, integrity := 100, morale := 100,
                 miningTier := some .T1, groundTroops := 0, groundTroopCapacity := 0 }],
    selectedSystemId := none, selectedFleetId := none, selectedSystemObject := none,
    resources := ⟨⟨0, 0, 0⟩, 0, 0, 0⟩, intelLog := [] }

/-- How one `applyMiningForPlayerTurn` loop iteration can relate an asteroid
field to its successor: identifying data are preserved, a depleted field is
untouched, and on a field with non-negative capacity and positive remaining
yield the gauge can only go down while staying non-negative. -/
def astRel (a b : Asteroids) : Prop :=
  b.metalTier = a.metalTier ∧ b.richness = a.richness ∧ b.totalYield = a.totalYield ∧
  (a.yieldRemaining ≤ 0 → b = a) ∧
  (0 ≤ a.totalYield → 0 < a.yieldRemaining →
    b.yieldRemaining ≤ a.yieldRemaining ∧ 0 ≤ b.yieldRemaining)

/-- C8 fixture: a fresh T1 field of richness 0.75 (the bootstrap values)
with a stationed T1 miner. -/
def c8System : StarSystem :=
  { id := "LODE", name := "Lode", coord := ⟨0, 0⟩, seed := 2, discovered := true,
    type := .STAR, tier := 1, intel := .SCANNED,
    asteroids := some ⟨.T1, 0.75, 100, 1000⟩, station := none, planets := [] }

def c8Miner : Fleet :=
  { id := "M-8", name := "Digger-8", owner := .PLAYER, role := .MINER, shipType := .MINER,
    ships := [createShip .MINER "M-8" 0], location := "LODE", maxMoves := 2, movesLeft := 2,
    integrity := 100, morale := 100, miningTier := some .T1, groundTroops := 0,
    groundTroopCapacity := 0 }

def c8State : GameState :=
  { version := 1, turn := 2, phase := .PLAYER, galaxy := [c8System], fleets := [c8Miner],
    selectedSystemId := none, selectedFleetId := none, selectedSystemObject := none,
    resources := ⟨⟨0, 0, 0⟩, 0, 0, 0⟩, intelLog := [] }

/-! ## Small facts about the state helpers -/

@[simp] theorem pushIntel_version (st : GameState) (k : IntelKind) :
    (pushIntel st k).version = st.version := rfl

@[simp] theorem pushIntel_turn (st : GameState) (k : IntelKind) :
    (pushIntel st k).turn = st.turn := rfl

@[simp] theorem pushIntel_phase (st : GameState) (k : IntelKind) :
    (pushIntel st k).phase = st.phase := rfl

@[simp] theorem pushIntel_galaxy (st : GameState) (k : IntelKind) :
    (pushIntel st k).galaxy = st.galaxy := rfl

@[simp] theorem pushIntel_fleets (st : GameState) (k : IntelKind) :
    (pushIntel st k).fleets = st.fleets := rfl

@[simp] theorem pushIntel_resources (st : GameState) (k : IntelKind) :
    (pushIntel st k).resources = st.resources := rfl

@[simp] theorem resetMovesFor_phase (st : GameState) (o : FleetOwner) :
    (resetMovesFor st o).phase = st.phase := rfl

@[simp] theorem resetMovesFor_turn (st : GameState) (o : FleetOwner) :
    (resetMovesFor st o).turn = st.turn := rfl

@[simp] theorem resetMovesFor_galaxy (st : GameState) (o : FleetOwner) :
    (resetMovesFor st o).galaxy = st.galaxy := rfl

@[simp] theorem resetMovesFor_resources (st : GameState) (o : FleetOwner) :
    (resetMovesFor st o).resources = st.resources := rfl

@[simp] theorem updatePlanet_phase (st : GameState) (a b : String) (p : Planet) :
    (updatePlanet st a b p).phase = st.phase := rfl

@[simp] theorem updatePlanet_resources (st : GameState) (a b : String) (p : Planet) :
    (updatePlanet st a b p).resources = st.resources := rfl

@[simp] theorem updateFleetTroops_phase (st : GameState) (a : String) (n : Int) :
    (updateFleetTroops st a n).phase = st.phase := rfl

/-- A `find?` commutes with a `map` whose function preserves the predicate
being searched for (all the in-place `Record` updates in the source have
this shape: `map` guarded by the object key). -/
theorem find?_map_pres {α : Type} (l : List α) (p : α → Bool) (f : α → α)
    (hpf : ∀ x, p (f x) = p x) : (l.map f).find? p = (l.find? p).map f := by
  induction l with
  | nil => rfl
  | cons x xs ih =>
    rw [List.map_cons, List.find?_cons, List.find?_cons, hpf x]
    cases hx : p x
    · simpa using ih
    · simp

end HexFleet

/-! # Claim theorems -/

namespace HexFleet

/-- Claim C9 (status: code_bug).  The spec requires that gameplay-affecting
outcomes never draw from the ambient global random source, but
`createPlanet` computes the new planet's population from a raw
`Math.random()` draw (and `invadePlanet` likewise rolls `Math.random()` for
battle resolution).  With the ambient draw made explicit, two runs of the
identical action `createPlanet('SOL','P1','NEUTRAL')` from the identical
bootstrap state produce different game states (population 1000 vs 6000), so
the gameplay outcome depends on the ambient source. -/
theorem createPlanet_ambient_random_dependence :
    createPlanet bootstrapGameState "SOL" "P1" .NEUTRAL 0 ≠
      createPlanet bootstrapGameState "SOL" "P1" .NEUTRAL (1/2) ∧
    (findPlanet (createPlanet bootstrapGameState "SOL" "P1" .NEUTRAL 0) "P1").map
        (fun pr => pr.2.population) = some 1000 ∧
    (findPlanet (createPlanet bootstrapGameState "SOL" "P1" .NEUTRAL (1/2)) "P1").map
        (fun pr => pr.2.population) = some 6000 :=
  ⟨by decide, by decide, by decide⟩

/-- Claim C5 (status: confirmed).  One `resolveInvasionTick` call performs
exactly the claimed deterministic attrition step: `turnsOngoing += 1`,
`attackDamage = max(1, strength - fortification)`,
`defenseDamage = max(1, garrison)`, both damages applied floored at 0,
`unrest += 1`, then — in order — attacker capture when `garrison ≤ 0`
(new garrison `max(1, floor(strength/2))`, unrest − 2 floored at 0,
invasion cleared), defender win when `strength ≤ 0` (control to the
non-attacker, unrest − 3 floored at 0, invasion cleared), else the siege
continues.  The function is pure (no randomness), and the spec's fixed start
`garrison=10, fortification=2, invasionStrength=20` resolves on the first
tick with the attacker in control and occupation garrison 5. -/
theorem resolveInvasionTick_spec :
    (∀ (p : Planet) (inv : Invasion), p.invasion = some inv →
      resolveInvasionTick p =
        (let attackDamage := max 1 (inv.invasionStrength - p.defense.fortification)
         let defenseDamage := max 1 p.defense.garrison
         let garrison2 := max 0 (p.defense.garrison - attackDamage)
         let strength2 := max 0 (inv.invasionStrength - defenseDamage)
         let unrest2 := p.defense.unrest + 1
         if garrison2 ≤ 0 then
           ({ p with controller := inv.attacker.toController,
                     defense := { control := inv.attacker.toController,
                                  garrison := max 1 (Int.fdiv strength2 2),
                                  fortification := p.defense.fortification,
                                  unrest := max 0 (unrest2 - 2) },
                     invasion := none }, some IntelKind.ALERT)
         else if strength2 ≤ 0 then
           ({ p with controller := inv.attacker.opponent.toController,
                     defense := { control := inv.attacker.opponent.toController,
                                  garrison := garrison2,
                                  fortification := p.defense.fortification,
                                  unrest := max 0 (unrest2 - 3) },
                     invasion := none }, some IntelKind.ALERT)
         else
           ({ p with defense := { p.defense with garrison := garrison2, unrest := unrest2 },
                     invasion := some { inv with invasionStrength := strength2,
                                                 turnsOngoing := inv.turnsOngoing + 1 } },
            some IntelKind.SYSTEM)))
    ∧ resolveInvasionTick siegePlanet =
        ({ siegePlanet with controller := .PLAYER,
                            defense := { control := .PLAYER, garrison := 5, fortification := 2,
                                         unrest := 0 },
                            invasion := none }, some .ALERT) := by
  constructor
  · intro p inv h
    simp only [resolveInvasionTick, h]
  · decide

/-- Witness for C5: the theorem applied at the spec's concrete siege start. -/
theorem resolveInvasionTick_spec_witness :
    resolveInvasionTick siegePlanet =
      ({ siegePlanet with controller := .PLAYER,
                          defense := { control := .PLAYER, garrison := 5, fortification := 2,
                                       unrest := 0 },
                          invasion := none }, some .ALERT) :=
  (resolveInvasionTick_spec.1 siegePlanet _ rfl).trans (by decide)

/-- Claim C1 counterexample (status: corrected).  A failed load is *not*
byte-for-byte identity on the in-memory state: every failure branch calls
`pushIntel('ALERT', …)`, which appends to `state.intelLog` — a field of the
serialized game state — so after a failed load (here: no save under the key)
the state differs from the pre-load state. -/
theorem loadGame_failure_mutates_intel_log :
    (loadGame bootstrapGameState none).1 = false ∧
    (loadGame bootstrapGameState none).2 ≠ bootstrapGameState := by
  decide

/-- Case analysis of `loadGame`: every failure is `pushIntel st ALERT`, and
success replaces the state wholesale with the parsed payload. -/
theorem loadGame_cases (st : GameState) (stored : Option StoredPayload) :
    ((loadGame st stored).1 = false → (loadGame st stored).2 = pushIntel st .ALERT)
    ∧ ((loadGame st stored).1 = true →
        ∃ p g fl r, stored = some (.payload p) ∧ p.version = 1 ∧
          p.galaxy = some g ∧ p.fleets = some fl ∧ p.resources = some r ∧
          (loadGame st stored).2 = pushIntel
            { version := p.version, turn := p.turn, phase := p.phase, galaxy := g,
              fleets := fl, selectedSystemId := p.selectedSystemId,
              selectedFleetId := p.selectedFleetId,
              selectedSystemObject := p.selectedSystemObject,
              resources := { tieredMetals := ensureTieredMetals r.tieredMetals,
                             alloys := r.alloys, gas := r.gas, crystals := r.crystals },
              intelLog := p.intelLog } .SYSTEM) := by
  rcases stored with _ | sp
  · exact ⟨fun _ => rfl, by simp [loadGame]⟩
  · cases sp with
    | junk => exact ⟨fun _ => rfl, by simp [loadGame]⟩
    | nullish => exact ⟨fun _ => rfl, by simp [loadGame]⟩
    | payload p =>
      by_cases hv : p.version = 1
      · rcases hg : p.galaxy with _ | g
        · constructor
          · intro _
            simp [loadGame, hv, hg]
          · intro htrue
            simp [loadGame, hv, hg] at htrue
        · rcases hf : p.fleets with _ | fl
          · constructor
            · intro _
              simp [loadGame, hv, hg, hf]
            · intro htrue
              simp [loadGame, hv, hg, hf] at htrue
          · rcases hr : p.resources with _ | r
            · constructor
              · intro _
                simp [loadGame, hv, hg, hf, hr]
              · intro htrue
                simp [loadGame, hv, hg, hf, hr] at htrue
            · constructor
              · intro hfalse
                simp [loadGame, hv, hg, hf, hr] at hfalse
              · intro _
                exact ⟨p, g, fl, r, rfl, hv, hg, hf, hr, by simp [loadGame, hv, hg, hf, hr]⟩
      · constructor
        · intro _
          simp [loadGame, hv]
        · intro htrue
          simp [loadGame, hv] at htrue

/-- Claim C1 amended (status: corrected): on every validation failure (no
save, unparsable JSON, falsy payload, version mismatch, missing
galaxy/fleets/resources) `loadGame` returns `false` and leaves the state
unchanged *except* for appending exactly one ALERT intel entry; a successful
load replaces the state wholesale with the parsed payload (backfilling
`tieredMetals`) plus one SYSTEM entry. -/
theorem loadGame_spec (st : GameState) (stored : Option StoredPayload) :
    ((loadGame st stored).1 = false → (loadGame st stored).2 = pushIntel st .ALERT)
    ∧ ((loadGame st stored).1 = true →
        ∃ p g fl r, stored = some (.payload p) ∧ p.version = 1 ∧
          p.galaxy = some g ∧ p.fleets = some fl ∧ p.resources = some r ∧
          (loadGame st stored).2 = pushIntel
            { version := p.version, turn := p.turn, phase := p.phase, galaxy := g,
              fleets := fl, selectedSystemId := p.selectedSystemId,
              selectedFleetId := p.selectedFleetId,
              selectedSystemObject := p.selectedSystemObject,
              resources := { tieredMetals := ensureTieredMetals r.tieredMetals,
                             alloys := r.alloys, gas := r.gas, crystals := r.crystals },
              intelLog := p.intelLog } .SYSTEM) :=
  loadGame_cases st stored

/-- Witness for C1's amended theorem: applied at the bootstrap state with an
empty save slot — load fails and the state is exactly bootstrap plus one
ALERT entry. -/
theorem loadGame_spec_witness :
    (loadGame bootstrapGameState none).2 = pushIntel bootstrapGameState .ALERT :=
  (loadGame_spec bootstrapGameState none).1 (by decide)

/-- A hit of `findPlanet` is an entry of some system's planet table. -/
theorem findPlanet_mem {st : GameState} {pid sysId : String} {planet : Planet}
    (h : findPlanet st pid = some (sysId, planet)) :
    ∃ sys ∈ st.galaxy, ∃ pr ∈ sys.planets, pr.1 = pid ∧ pr.2 = planet := by
  unfold findPlanet at h
  rcases hsys : st.galaxy.find? (fun sys => (findPlanetIn sys pid).isSome) with _ | sys
  · rw [hsys] at h
    simp at h
  · rw [hsys] at h
    unfold findPlanetIn at h
    rcases hpr : sys.planets.find? (fun pr => pr.1 = pid) with _ | pr
    · simp [findPlanetIn, hpr] at h
    · simp [findPlanetIn, hpr, Prod.ext_iff] at h
      refine ⟨sys, List.mem_of_find?_eq_some hsys, pr, List.mem_of_find?_eq_some hpr, ?_, h.2⟩
      simpa using List.find?_some hpr

/-- Claim C6 (status: confirmed).  `reinforcePlanet(planetId, amount, owner)`
(the Reinforcement.ts engine) succeeds exactly when the planet exists, its
controller equals `owner`, `amount > 0` and no invasion is active — under
the engine's invariant that an active invasion forces CONTESTED control, so
the controller check subsumes the mid-siege rejection (CONTESTED never
equals a PLAYER/ENEMY owner).  Rejection changes nothing but the intel log;
success adds `amount` to the garrison (and the legacy `groundTroops`
mirror) and lowers unrest by `floor(amount/10)` floored at 0. -/
theorem reinforcePlanet_spec (st : GameState) (planetId : String) (amount : Int)
    (owner : FleetOwner) (hinv : InvasionContestedInv st) :
    ((reinforcePlanet st planetId amount owner).1 = true ↔
      ∃ sysId planet, findPlanet st planetId = some (sysId, planet) ∧
        planet.invasion = none ∧ planet.defense.control = owner.toController ∧ 0 < amount)
    ∧ ((reinforcePlanet st planetId amount owner).1 = false →
        (reinforcePlanet st planetId amount owner).2 = pushIntel st .ALERT)
    ∧ (∀ sysId planet, findPlanet st planetId = some (sysId, planet) →
        (reinforcePlanet st planetId amount owner).1 = true →
        (reinforcePlanet st planetId amount owner).2 =
          (let d2 : PlanetDefense := { planet.defense with garrison := planet.defense.garrison + amount, unrest := max 0 (planet.defense.unrest - Int.fdiv amount 10) }
           pushIntel (updatePlanet st sysId planetId { planet with defense := d2, groundTroops := planet.groundTroops + amount }) .SYSTEM)) := by
  rcases hfp : findPlanet st planetId with _ | ⟨sysId0, planet0⟩
  · refine ⟨?_, ?_, ?_⟩
    · simp only [reinforcePlanet, hfp]
      constructor
      · intro h
        simp at h
      · rintro ⟨s, p, hs, -⟩
        exact absurd hs (by simp)
    · intro _
      simp [reinforcePlanet, hfp]
    · intro s p hs
      exact absurd hs (by simp)
  · have hctl : planet0.invasion.isSome → planet0.defense.control = .CONTESTED := by
      obtain ⟨sys, hsys, pr, hpr, -, hp2⟩ := findPlanet_mem hfp
      intro hi
      have h2 := hinv sys hsys pr hpr (by rw [hp2]; exact hi)
      rw [hp2] at h2
      exact h2
    by_cases hown : planet0.defense.control = owner.toController
    · have hno : planet0.invasion = none := by
        rcases hi : planet0.invasion with _ | iv
        · rfl
        · have hc := hctl (by rw [hi]; rfl)
          rw [hown] at hc
          cases owner <;> simp [FleetOwner.toController] at hc
      by_cases hamt : amount ≤ 0
      · refine ⟨?_, ?_, ?_⟩
        · constructor
          · intro h
            simp [reinforcePlanet, hfp, hown, hamt] at h
          · rintro ⟨s, p, hs, -, -, hpos⟩
            injection hs with hs
            obtain ⟨h1, h2⟩ := Prod.mk.inj hs
            omega
        · intro _
          simp [reinforcePlanet, hfp, hown, hamt]
        · intro s p hs htrue
          simp [reinforcePlanet, hfp, hown, hamt] at htrue
      · refine ⟨?_, ?_, ?_⟩
        · constructor
          · intro _
            exact ⟨sysId0, planet0, rfl, hno, hown, by omega⟩
          · intro _
            simp [reinforcePlanet, hfp, hown, hamt]
        · intro hfalse
          simp [reinforcePlanet, hfp, hown, hamt] at hfalse
        · intro s p hs _
          injection hs with hs
          obtain ⟨h1, h2⟩ := Prod.mk.inj hs
          subst h1
          subst h2
          simp [reinforcePlanet, hfp, hown, hamt]
    · refine ⟨?_, ?_, ?_⟩
      · constructor
        · intro h
          simp [reinforcePlanet, hfp, hown] at h
        · rintro ⟨s, p, hs, -, hc, -⟩
          injection hs with hs
          obtain ⟨h1, h2⟩ := Prod.mk.inj hs
          subst h2
          exact absurd hc hown
      · intro _
        simp [reinforcePlanet, hfp, hown]
      · intro s p hs htrue
        simp [reinforcePlanet, hfp, hown] at htrue

/-- Witness for C6: reinforcing the fixture planet (garrison 5, unrest 7,
player-held, uncontested) with 20 troops succeeds. -/
theorem reinforcePlanet_spec_witness :
    (reinforcePlanet c6State "P1" 20 .PLAYER).1 = true ∧
    (reinforcePlanet c6State "P1" 20 .PLAYER).2 = pushIntel (updatePlanet c6State "HOME" "P1"
      { c6Planet with
          defense := { c6Planet.defense with garrison := 25, unrest := 5 },
          groundTroops := 25 }) .SYSTEM := by
  have h := reinforcePlanet_spec c6State "P1" 20 .PLAYER (by
    intro sys hsys pr hpr hsome
    simp only [c6State, List.mem_singleton] at hsys
    subst hsys
    simp only [List.mem_singleton] at hpr
    subst hpr
    simp [c6Planet] at hsome)
  have htrue : (reinforcePlanet c6State "P1" 20 .PLAYER).1 = true :=
    h.1.mpr ⟨"HOME", c6Planet, by decide, by decide, by decide, by decide⟩
  refine ⟨htrue, ?_⟩
  have := h.2.2 "HOME" c6Planet (by decide) htrue
  exact this.trans (by decide)

/-- A `find?` skips a prefix containing no match. -/
theorem find?_append_of_forall_neg {α : Type} (l₁ l₂ : List α) (p : α → Bool)
    (h : ∀ x ∈ l₁, ¬p x = true) : (l₁ ++ l₂).find? p = l₂.find? p := by
  induction l₁ with
  | nil => rfl
  | cons x xs ih =>
    rw [List.cons_append, List.find?_cons]
    have hx : p x = false := by
      have := h x (List.mem_cons_self x xs)
      simpa using this
    rw [hx]
    exact ih (fun y hy => h y (List.mem_cons_of_mem x hy))

/-- A successful `buildFleet` debits exactly the blueprint cost, keeps the
phase, and appends one fresh single-ship player fleet. -/
theorem buildFleet_success (st : GameState) (key sysId newId : String) (bp : Blueprint)
    (s : StarSystem) (hbp : blueprintByKey key = some bp) (hs : getSystem st sysId = some s)
    (hphase : st.phase = .PLAYER) (hafford : canAfford st.resources bp.cost = true) :
    (buildFleet st key sysId newId).1 = true ∧
    (buildFleet st key sysId newId).2.resources = payCost st.resources bp.cost ∧
    (buildFleet st key sysId newId).2.phase = st.phase ∧
    (buildFleet st key sysId newId).2.fleets = st.fleets ++
      [(let ship := createShip bp.shipType newId 0
        let stats := calculateFleetStats [ship]
        { id := newId, name := bp.name ++ "-" ++ pad2 st.fleets.length, owner := .PLAYER, role := stats.role, shipType := stats.shipType, ships := [ship], location := sysId, maxMoves := MOVES_PER_TURN, movesLeft := MOVES_PER_TURN, integrity := stats.integrity, morale := stats.morale, miningTier := stats.miningTier, groundTroops := stats.groundTroops, groundTroopCapacity := stats.groundTroopCapacity } : Fleet)] := by
  refine ⟨?_, ?_, ?_, ?_⟩
  · simp [buildFleet, hbp, hs, hphase, hafford]
  · simp [buildFleet, hbp, hs, hphase, hafford]
  · simp [buildFleet, hbp, hs, hphase, hafford]
  · simp [buildFleet, hbp, hs, hphase, hafford]

/-- A successful `dismantleFleet` credits back exactly the per-tier
`floor(buildCost * 0.5)` sums over the fleet's ships. -/
theorem dismantleFleet_success (st : GameState) (fid : String) (fl : Fleet)
    (hf : getFleet st fid = some fl) (hown : fl.owner = .PLAYER)
    (hphase : st.phase = .PLAYER) :
    (dismantleFleet st fid).1 = true ∧
    (dismantleFleet st fid).2.resources.tieredMetals =
      ⟨st.resources.tieredMetals.T1 + (dismantleRefund fl).T1,
       st.resources.tieredMetals.T2 + (dismantleRefund fl).T2,
       st.resources.tieredMetals.T3 + (dismantleRefund fl).T3⟩ := by
  constructor
  · simp [dismantleFleet, hf, hown, hphase]
  · simp only [dismantleFleet, hf]
    rw [if_neg (by simp [hown]), if_neg (by simp [hphase])]
    split <;> rfl

/-- Claim C7 (status: confirmed).  Building a fleet from any blueprint and
immediately dismantling it credits back exactly `floor(buildCost * 0.5)` per
tier (the created ship's `buildCost` table row equals the blueprint cost for
every catalog entry), so the round trip changes each tier balance by exactly
`floor(cost/2) − cost`. -/
theorem build_dismantle_roundtrip (st : GameState) (key sysId newId : String) (bp : Blueprint)
    (hbp : blueprintByKey key = some bp) (hsys : (getSystem st sysId).isSome = true)
    (hphase : st.phase = .PLAYER) (hafford : canAfford st.resources bp.cost = true)
    (hfresh : ∀ f ∈ st.fleets, f.id ≠ newId) :
    (buildFleet st key sysId newId).1 = true ∧
    (dismantleFleet (buildFleet st key sysId newId).2 newId).1 = true ∧
    (dismantleFleet (buildFleet st key sysId newId).2 newId).2.resources.tieredMetals =
      ⟨st.resources.tieredMetals.T1 - bp.cost.T1 + Int.fdiv bp.cost.T1 2,
       st.resources.tieredMetals.T2 - bp.cost.T2 + Int.fdiv bp.cost.T2 2,
       st.resources.tieredMetals.T3 - bp.cost.T3 + Int.fdiv bp.cost.T3 2⟩ := by
  obtain ⟨s, hs⟩ := Option.isSome_iff_exists.mp hsys
  obtain ⟨h1, hres, hph, hfleets⟩ :=
    buildFleet_success st key sysId newId bp s hbp hs hphase hafford
  obtain ⟨fl, hfl, hid, hflown, hships⟩ :
      ∃ fl, (buildFleet st key sysId newId).2.fleets = st.fleets ++ [fl] ∧ fl.id = newId ∧
        fl.owner = .PLAYER ∧ fl.ships = [createShip bp.shipType newId 0] :=
    ⟨_, hfleets, rfl, rfl, rfl⟩
  have hcost : (createShip bp.shipType newId 0).buildCost = bp.cost := by
    have hmem := List.mem_of_find?_eq_some hbp
    simp only [BLUEPRINTS, List.mem_cons, List.mem_singleton, List.not_mem_nil, or_false] at hmem
    rcases hmem with h | h | h <;> subst h <;> rfl
  have hget : getFleet (buildFleet st key sysId newId).2 newId = some fl := by
    unfold getFleet
    rw [hfl, find?_append_of_forall_neg]
    · rw [List.find?_cons]
      simp [hid]
    · intro x hx
      simpa using hfresh x hx
  have hrefund : dismantleRefund fl =
      ⟨Int.fdiv bp.cost.T1 2, Int.fdiv bp.cost.T2 2, Int.fdiv bp.cost.T3 2⟩ := by
    simp [dismantleRefund, hships, hcost]
  obtain ⟨h2, h3⟩ := dismantleFleet_success (buildFleet st key sysId newId).2 newId fl hget
    hflown (by rw [hph]; exact hphase)
  refine ⟨h1, h2, ?_⟩
  rw [h3, hrefund, hres]
  rfl

/-- Witness for C7: the Frigate named by the spec — cost `T1:15, T2:5`,
refund `T1:7, T2:2` — built from a balance of `T1:20, T2:9` and dismantled,
leaving `T1:12, T2:6` (net `floor(cost/2) − cost` per tier). -/
theorem build_dismantle_roundtrip_witness :
    (buildFleet c7State "FRIGATE" "YARD" "F-1").1 = true ∧
    (dismantleFleet (buildFleet c7State "FRIGATE" "YARD" "F-1").2 "F-1").1 = true ∧
    (dismantleFleet (buildFleet c7State "FRIGATE" "YARD" "F-1").2 "F-1").2.resources.tieredMetals =
      ⟨12, 6, 0⟩ := by
  obtain ⟨h1, h2, h3⟩ := build_dismantle_roundtrip c7State "FRIGATE" "YARD" "F-1"
    { key := "FRIGATE", name := "Frigate", shipType := .FRIGATE, cost := ⟨15, 5, 0⟩ }
    (by decide) (by decide) (by decide) (by decide) (by intro f hf; simp [c7State] at hf)
  exact ⟨h1, h2, h3.trans (by decide)⟩

/-- A `getFleet` hit has the looked-up id. -/
theorem getFleet_id {st : GameState} {fid : String} {f : Fleet}
    (h : getFleet st fid = some f) : f.id = fid := by
  simpa using List.find?_some h

/-- Claim C3 (status: confirmed).  `moveFleet(fleetId, targetSystemId)`
succeeds *iff* both ids resolve, the phase is PLAYER, the fleet is
player-owned, `movesLeft > 0`, the fleet's current system resolves, and the
hex distance from the current system to the target is exactly 1; on success
the fleet is relocated to the target and `movesLeft` drops by exactly 1. -/
theorem moveFleet_spec (st : GameState) (fid tid : String) :
    ((moveFleet st fid tid).1 = true ↔
      st.phase = .PLAYER ∧
      ∃ f target cur, getFleet st fid = some f ∧ getSystem st tid = some target ∧
        getSystem st f.location = some cur ∧ f.owner = .PLAYER ∧ 0 < f.movesLeft ∧
        hexDistance cur.coord target.coord = 1)
    ∧ (∀ f, getFleet st fid = some f → (moveFleet st fid tid).1 = true →
        getFleet (moveFleet st fid tid).2 fid =
          some { f with location := tid, movesLeft := f.movesLeft - 1 }) := by
  have hiff : (moveFleet st fid tid).1 = true ↔
      st.phase = .PLAYER ∧
      ∃ f target cur, getFleet st fid = some f ∧ getSystem st tid = some target ∧
        getSystem st f.location = some cur ∧ f.owner = .PLAYER ∧ 0 < f.movesLeft ∧
        hexDistance cur.coord target.coord = 1 := by
    constructor
    · intro htrue
      rcases hf : getFleet st fid with _ | f
      · rw [moveFleet, hf] at htrue
        simp at htrue
      · rcases ht : getSystem st tid with _ | target
        · rw [moveFleet, hf, ht] at htrue
          simp at htrue
        · by_cases hphase : st.phase = .PLAYER
          · by_cases howner : f.owner = .PLAYER
            · by_cases hmoves : f.movesLeft ≤ 0
              · rw [moveFleet, hf, ht] at htrue
                simp [hphase, howner, hmoves] at htrue
              · rcases hcur : getSystem st f.location with _ | cur
                · rw [moveFleet, hf, ht] at htrue
                  simp [hphase, howner, hmoves, systemCoord, hcur] at htrue
                · by_cases hdist : hexDistance cur.coord target.coord = 1
                  · exact ⟨hphase, f, target, cur, rfl, rfl, hcur, howner, by omega, hdist⟩
                  · rw [moveFleet, hf, ht] at htrue
                    simp [hphase, howner, hmoves, systemCoord, hcur, hdist] at htrue
            · rw [moveFleet, hf, ht] at htrue
              simp [hphase, howner] at htrue
          · rw [moveFleet, hf, ht] at htrue
            simp [hphase] at htrue
    · rintro ⟨hphase, f, target, cur, hf, ht, hcur, howner, hmoves, hdist⟩
      rw [moveFleet]
      simp only [hf, ht]
      rw [if_neg (by simp [hphase]), if_neg (by simp [howner]), if_neg (by omega)]
      rw [systemCoord, hcur]
      simp only [Option.map_some']
      rw [if_neg (by simp [hdist])]
  refine ⟨hiff, ?_⟩
  intro f hf htrue
  obtain ⟨hphase, f0, target, cur, hf0, ht, hcur, howner, hmoves, hdist⟩ := hiff.mp htrue
  rw [hf] at hf0
  injection hf0 with hf0
  subst hf0
  have hfid : f.id = fid := getFleet_id hf
  have hred : (moveFleet st fid tid).2.fleets = st.fleets.map (fun g =>
      if g.id = fid then { g with location := tid, movesLeft := g.movesLeft - 1 } else g) := by
    rw [moveFleet]
    simp only [hf, ht]
    rw [if_neg (by simp [hphase]), if_neg (by simp [howner]), if_neg (by omega)]
    rw [systemCoord, hcur]
    simp only [Option.map_some']
    rw [if_neg (by simp [hdist])]
    split <;> rfl
  have hfind : st.fleets.find? (fun g => g.id = fid) = some f := hf
  unfold getFleet
  rw [hred, find?_map_pres _ _ _ (by
    intro x
    by_cases hx : x.id = fid <;> simp [hx]), hfind]
  simp [hfid]

/-- Witness for C3: from bootstrap, moving the starting miner from Sol to
the adjacent Alpha succeeds and lands it at Alpha with one move spent. -/
theorem moveFleet_spec_witness :
    (moveFleet bootstrapGameState "MINER-1" "ALPHA").1 = true ∧
    ∃ f, getFleet bootstrapGameState "MINER-1" = some f ∧
      getFleet (moveFleet bootstrapGameState "MINER-1" "ALPHA").2 "MINER-1" =
        some { f with location := "ALPHA", movesLeft := f.movesLeft - 1 } := by
  have h := moveFleet_spec bootstrapGameState "MINER-1" "ALPHA"
  have hs : (moveFleet bootstrapGameState "MINER-1" "ALPHA").1 = true :=
    h.1.mpr ⟨by decide, _, _, _, rfl, rfl, rfl, by decide, by decide, by decide⟩
  exact ⟨hs, _, rfl, h.2 _ rfl hs⟩

/-! ## Asteroid depletion machinery (C2, C8) -/

theorem getSystem_id {st : GameState} {sysId : String} {s : StarSystem}
    (h : getSystem st sysId = some s) : s.id = sysId := by
  simpa using List.find?_some h

theorem asteroidsOf_eq_some {st : GameState} {sysId : String} {a : Asteroids} :
    asteroidsOf st sysId = some a ↔
      ∃ s, getSystem st sysId = some s ∧ s.asteroids = some a := by
  unfold asteroidsOf
  rcases h : getSystem st sysId with _ | s <;> simp

theorem astRel_refl (a : Asteroids) : astRel a a :=
  ⟨rfl, rfl, rfl, fun _ => rfl, fun _ _ => ⟨le_refl _, by linarith⟩⟩

theorem astRel_trans {a b c : Asteroids} (hab : astRel a b) (hbc : astRel b c) :
    astRel a c := by
  obtain ⟨ht1, hr1, hy1, hz1, hm1⟩ := hab
  obtain ⟨ht2, hr2, hy2, hz2, hm2⟩ := hbc
  refine ⟨ht2.trans ht1, hr2.trans hr1, hy2.trans hy1, ?_, ?_⟩
  · intro hle
    have hba := hz1 hle
    subst hba
    exact hz2 hle
  · intro hT hy
    obtain ⟨hle, hnn⟩ := hm1 hT hy
    by_cases hb0 : 0 < b.yieldRemaining
    · obtain ⟨hle2, hnn2⟩ := hm2 (by rw [hy1]; exact hT) hb0
      exact ⟨hle2.trans hle, hnn2⟩
    · have hcb := hz2 (by linarith)
      subst hcb
      exact ⟨hle, hnn⟩

theorem getSystem_mineApply (acc : GameState) (loc : String) (aa : Asteroids) (g : Int)
    (sysId : String) :
    getSystem (mineApply acc loc aa g) sysId = (getSystem acc sysId).map
      (fun (s : StarSystem) =>
        if s.id = loc then { s with asteroids := some (mineUpdatedAsteroid aa g) } else s) := by
  unfold mineApply getSystem
  simp only [pushIntel_galaxy]
  exact find?_map_pres _ _ _ (by
    intro x
    by_cases hx : x.id = loc <;> simp [hx])

theorem mineApply_resources (acc : GameState) (loc : String) (aa : Asteroids) (g : Int) :
    (mineApply acc loc aa g).resources = addMetals acc.resources aa.metalTier g := rfl

theorem astRel_mineUpdated (a : Asteroids) (g : Int) (hg : 0 ≤ g)
    (hdep : ¬a.yieldRemaining ≤ 0) : astRel a (mineUpdatedAsteroid a g) := by
  refine ⟨rfl, rfl, rfl, fun hle => absurd hle hdep, fun hT hy => ⟨?_, le_max_left 0 _⟩⟩
  have hgq : (0 : Rat) ≤ (g : Rat) := by exact_mod_cast hg
  have hd : (0 : Rat) ≤ ((g : Rat) / a.totalYield) * 100 :=
    mul_nonneg (div_nonneg hgq hT) (by norm_num)
  exact max_le (le_of_lt hy) (by linarith)

theorem mineFleetStep_astRel (acc : GameState) (f : Fleet) (sysId : String) (a : Asteroids)
    (ha : asteroidsOf acc sysId = some a) :
    ∃ b, asteroidsOf (mineFleetStep acc f) sysId = some b ∧ astRel a b := by
  unfold mineFleetStep
  by_cases h1 : f.owner ≠ .PLAYER
  · rw [if_pos h1]
    exact ⟨a, ha, astRel_refl a⟩
  rw [if_neg h1]
  by_cases h2 : f.role ≠ .MINER
  · rw [if_pos h2]
    exact ⟨a, ha, astRel_refl a⟩
  rw [if_neg h2]
  rcases hsys : getSystem acc f.location with _ | sys
  · simp only [hsys]
    exact ⟨a, ha, astRel_refl a⟩
  simp only [hsys]
  rcases hast : sys.asteroids with _ | aB
  · simp only [hast]
    exact ⟨a, ha, astRel_refl a⟩
  simp only [hast]
  by_cases hdep : aB.yieldRemaining ≤ 0
  · rw [if_pos hdep]
    exact ⟨a, ha, astRel_refl a⟩
  rw [if_neg hdep]
  by_cases hgain :
      (max 0 (((MINER_YIELD_PER_TURN (f.miningTier.getD .T1) : Int) : Rat) * aB.richness).floor) ≤ 0
  · rw [if_pos hgain]
    exact ⟨a, ha, astRel_refl a⟩
  rw [if_neg hgain]
  obtain ⟨s0, hs0, has0⟩ := asteroidsOf_eq_some.mp ha
  by_cases hsid : s0.id = f.location
  · have hfl : f.location = sysId := by
      rw [← hsid]
      exact getSystem_id hs0
    have hss : sys = s0 := by
      rw [hfl] at hsys
      rw [hsys] at hs0
      exact Option.some.inj hs0
    subst hss
    have haa : aB = a := by
      rw [hast] at has0
      injection has0
    subst haa
    refine ⟨mineUpdatedAsteroid aB (max 0 (((MINER_YIELD_PER_TURN (f.miningTier.getD .T1) : Int) : Rat) * aB.richness).floor), ?_, astRel_mineUpdated aB _ (le_max_left 0 _) hdep⟩
    rw [asteroidsOf_eq_some]
    refine ⟨{ sys with asteroids := some (mineUpdatedAsteroid aB (max 0 (((MINER_YIELD_PER_TURN (f.miningTier.getD .T1) : Int) : Rat) * aB.richness).floor)) }, ?_, rfl⟩
    rw [getSystem_mineApply, hs0]
    simp only [Option.map_some']
    rw [if_pos hsid]
  · refine ⟨a, ?_, astRel_refl a⟩
    rw [asteroidsOf_eq_some]
    refine ⟨s0, ?_, has0⟩
    rw [getSystem_mineApply, hs0]
    simp only [Option.map_some']
    rw [if_neg hsid]

theorem applyMining_astRel (st : GameState) (sysId : String) (a : Asteroids)
    (ha : asteroidsOf st sysId = some a) :
    ∃ b, asteroidsOf (applyMiningForPlayerTurn st) sysId = some b ∧ astRel a b := by
  unfold applyMiningForPlayerTurn
  generalize st.fleets = l
  induction l generalizing st a with
  | nil => exact ⟨a, ha, astRel_refl a⟩
  | cons f fs ih =>
    rw [List.foldl_cons]
    obtain ⟨b, hb, hab⟩ := mineFleetStep_astRel st f sysId a ha
    obtain ⟨c, hc, hbc⟩ := ih (mineFleetStep st f) b hb
    exact ⟨c, hc, astRel_trans hab hbc⟩

theorem mineFleetStep_depleted (acc : GameState) (f : Fleet)
    (h : ∀ sys ∈ acc.galaxy, ∀ a, sys.asteroids = some a → a.yieldRemaining ≤ 0) :
    mineFleetStep acc f = acc := by
  unfold mineFleetStep
  by_cases h1 : f.owner ≠ .PLAYER
  · rw [if_pos h1]
  · rw [if_neg h1]
    by_cases h2 : f.role ≠ .MINER
    · rw [if_pos h2]
    · rw [if_neg h2]
      rcases hsys : getSystem acc f.location with _ | sys
      · simp only [hsys]
      · simp only [hsys]
        rcases hast : sys.asteroids with _ | aB
        · simp only [hast]
        · simp only [hast]
          rw [if_pos (h sys (List.mem_of_find?_eq_some hsys) aB hast)]

theorem applyMining_depleted (st : GameState)
    (h : ∀ sys ∈ st.galaxy, ∀ a, sys.asteroids = some a → a.yieldRemaining ≤ 0) :
    applyMiningForPlayerTurn st = st := by
  unfold applyMiningForPlayerTurn
  generalize st.fleets = l
  induction l with
  | nil => rfl
  | cons f fs ih =>
    rw [List.foldl_cons, mineFleetStep_depleted st f h]
    exact ih

theorem mineAsteroid_galaxy (st : GameState) (sysId objId : String) :
    (mineAsteroid st sysId objId).2.galaxy = st.galaxy := by
  unfold mineAsteroid
  repeat' (first | rfl | split | dsimp only)

/-- Claim C2 counterexample (status: corrected).  On a fully depleted field
(`yieldRemaining = 0`) the on-demand `mineAsteroid` action still *succeeds
and credits resources*: it neither checks nor updates `yieldRemaining`, so
"once yieldRemaining has reached 0 every subsequent mining attempt yields
nothing" fails for the on-demand path. -/
theorem mineAsteroid_ignores_depletion :
    asteroidsOf c2State "FIELD" = some ⟨.T1, 0.75, 0, 1000⟩ ∧
    (mineAsteroid c2State "FIELD" "FIELD:asteroid:0").1 = true ∧
    (mineAsteroid c2State "FIELD" "FIELD:asteroid:0").2.resources.tieredMetals.T1 =
      c2State.resources.tieredMetals.T1 + 1 := by
  refine ⟨by decide, by decide, by decide⟩

/-- Claim C2 amended (status: corrected).  For the per-`endTurn` mining pass,
every asteroid field keeps its identity data, a depleted field is never
touched, and on a field with non-negative capacity the gauge never
increases, stays non-negative, and never exceeds 100 once below it; if every
field is depleted the pass is a no-op.  The on-demand `mineAsteroid` never
modifies any field's `yieldRemaining` (it leaves the whole galaxy
untouched) and credits yield regardless of depletion. -/
theorem miningDepletion_spec (st : GameState) :
    (∀ sysId a, asteroidsOf st sysId = some a → 0 ≤ a.totalYield → 0 ≤ a.yieldRemaining →
      ∃ b, asteroidsOf (applyMiningForPlayerTurn st) sysId = some b ∧
        b.metalTier = a.metalTier ∧ b.totalYield = a.totalYield ∧
        b.yieldRemaining ≤ a.yieldRemaining ∧ 0 ≤ b.yieldRemaining ∧
        (a.yieldRemaining ≤ 100 → b.yieldRemaining ≤ 100))
    ∧ ((∀ sys ∈ st.galaxy, ∀ a, sys.asteroids = some a → a.yieldRemaining ≤ 0) →
        applyMiningForPlayerTurn st = st)
    ∧ (∀ sysId objId, (mineAsteroid st sysId objId).2.galaxy = st.galaxy) := by
  refine ⟨?_, applyMining_depleted st, mineAsteroid_galaxy st⟩
  intro sysId a ha hT hy
  obtain ⟨b, hb, ht, -, hTT, hz, hm⟩ := applyMining_astRel st sysId a ha
  by_cases h0 : 0 < a.yieldRemaining
  · obtain ⟨hle, hnn⟩ := hm hT h0
    exact ⟨b, hb, ht, hTT, hle, hnn, fun h100 => hle.trans h100⟩
  · have hba := hz (by linarith)
    subst hba
    exact ⟨b, hb, rfl, rfl, le_refl _, hy, fun h100 => h100⟩

/-- Witness for C2's amended theorem: applied to the bootstrap SOL field
(the pass keeps it within bounds) and to the all-depleted fixture state
(the pass is a no-op there). -/
theorem miningDepletion_spec_witness :
    (∃ b, asteroidsOf (applyMiningForPlayerTurn bootstrapGameState) "SOL" = some b ∧
      b.yieldRemaining ≤ 100 ∧ 0 ≤ b.yieldRemaining) ∧
    applyMiningForPlayerTurn c2State = c2State := by
  constructor
  · obtain ⟨b, hb, -, -, hle, hnn, h100⟩ := (miningDepletion_spec bootstrapGameState).1 "SOL"
      ⟨.T1, 0.75, 100, 1000⟩ (by decide) (by decide) (by decide)
    exact ⟨b, hb, h100 (by decide), hnn⟩
  · exact (miningDepletion_spec c2State).2.1 (by
      intro sys hsys a hast
      simp only [c2State, List.mem_singleton] at hsys
      subst hsys
      simp only [Option.some.injEq] at hast
      rw [← hast])

/-- Claim C8 (status: confirmed).  A successful mining-pass step for a fleet
gains exactly `floor(MINER_YIELD_PER_TURN[minerTier] * richness)` units and
credits them to the resource tier given by the *field's* `metalTier`
(independent of the miner's own tier, which only sets the base rate); and
concretely, from bootstrap the starting T1 miner on Sol's T1 field of
richness 0.75 gains `floor(2 * 0.75) = 1` unit of T1 metal in one
`endTurn()` while the field's `yieldRemaining` drops by `(1/1000)*100 = 0.1`
to 99.9 in the same call. -/
theorem miningYield_spec :
    (∀ (acc : GameState) (f : Fleet) (sys : StarSystem) (a : Asteroids),
      f.owner = .PLAYER → f.role = .MINER → getSystem acc f.location = some sys →
      sys.asteroids = some a → 0 < a.yieldRemaining →
      0 < (((MINER_YIELD_PER_TURN (f.miningTier.getD .T1) : Int) : Rat) * a.richness).floor →
      (mineFleetStep acc f).resources = addMetals acc.resources a.metalTier
        (max 0 (((MINER_YIELD_PER_TURN (f.miningTier.getD .T1) : Int) : Rat) * a.richness).floor))
    ∧ (endTurn bootstrapGameState).resources.tieredMetals.T1 = 1
    ∧ asteroidsOf (endTurn bootstrapGameState) "SOL" =
        some { metalTier := .T1, richness := 0.75, yieldRemaining := 999/10, totalYield := 1000 } := by
  refine ⟨?_, by decide, by decide⟩
  intro acc f sys a howner hrole hsys hast hdep hgain
  unfold mineFleetStep
  rw [if_neg (by simp [howner]), if_neg (by simp [hrole])]
  simp only [hsys, hast]
  rw [if_neg (by simpa using hdep)]
  rw [if_neg (by
    simp only [not_le]
    exact lt_max_of_lt_right hgain)]
  rfl

/-- Witness for C8's general step characterization: the fixture miner on a
fresh richness-0.75 T1 field credits exactly 1 unit of T1. -/
theorem miningYield_spec_witness :
    (mineFleetStep c8State c8Miner).resources = addMetals c8State.resources .T1 1 := by
  have h := miningYield_spec.1 c8State c8Miner c8System ⟨.T1, 0.75, 100, 1000⟩
    (by decide) (by decide) (by decide) (by decide) (by decide) (by decide)
  exact h.trans (by decide)

/-! ## Field-preservation lemmas for the end-turn pipeline stages -/

theorem mineFleetStep_turn (acc : GameState) (f : Fleet) :
    (mineFleetStep acc f).turn = acc.turn := by
  unfold mineFleetStep
  repeat' split
  all_goals try rfl
  all_goals (dsimp only; split <;> rfl)

theorem mineFleetStep_phase (acc : GameState) (f : Fleet) :
    (mineFleetStep acc f).phase = acc.phase := by
  unfold mineFleetStep
  repeat' split
  all_goals try rfl
  all_goals (dsimp only; split <;> rfl)

theorem applyMining_turn (st : GameState) :
    (applyMiningForPlayerTurn st).turn = st.turn := by
  unfold applyMiningForPlayerTurn
  generalize st.fleets = l
  induction l generalizing st with
  | nil => rfl
  | cons f fs ih =>
    rw [List.foldl_cons, ih (mineFleetStep st f), mineFleetStep_turn]

theorem applyMining_phase (st : GameState) :
    (applyMiningForPlayerTurn st).phase = st.phase := by
  unfold applyMiningForPlayerTurn
  generalize st.fleets = l
  induction l generalizing st with
  | nil => rfl
  | cons f fs ih =>
    rw [List.foldl_cons, ih (mineFleetStep st f), mineFleetStep_phase]

theorem enemyMoveStep_turn (acc : GameState) (c : HexCoord) (fid : String) :
    (enemyMoveStep acc c fid).turn = acc.turn := by
  unfold enemyMoveStep
  repeat' (first | rfl | split | dsimp only)

theorem enemyMoveStep_phase (acc : GameState) (c : HexCoord) (fid : String) :
    (enemyMoveStep acc c fid).phase = acc.phase := by
  unfold enemyMoveStep
  repeat' (first | rfl | split | dsimp only)

theorem enemyMoveStep_resources (acc : GameState) (c : HexCoord) (fid : String) :
    (enemyMoveStep acc c fid).resources = acc.resources := by
  unfold enemyMoveStep
  repeat' (first | rfl | split | dsimp only)

theorem enemyMoveStep_galaxy (acc : GameState) (c : HexCoord) (fid : String) :
    (enemyMoveStep acc c fid).galaxy = acc.galaxy := by
  unfold enemyMoveStep
  repeat' (first | rfl | split | dsimp only)

theorem enemyPhaseStep_turn (st : GameState) :
    (enemyPhaseStep st).turn = st.turn := by
  unfold enemyPhaseStep
  split
  · dsimp only
    split <;> rfl
  · rename_i sol heq
    dsimp only
    split
    · rfl
    · rename_i hne
      clear hne heq
      generalize (List.map (fun f => f.id) (List.filter (fun f => decide (f.owner = FleetOwner.ENEMY)) st.fleets)) = l
      generalize sol.coord = c
      clear sol
      induction l generalizing st with
      | nil => rfl
      | cons x xs ih =>
        rw [List.foldl_cons, ih (enemyMoveStep st c x), enemyMoveStep_turn]

theorem enemyPhaseStep_phase (st : GameState) :
    (enemyPhaseStep st).phase = st.phase := by
  unfold enemyPhaseStep
  split
  · dsimp only
    split <;> rfl
  · rename_i sol heq
    dsimp only
    split
    · rfl
    · rename_i hne
      clear hne heq
      generalize (List.map (fun f => f.id) (List.filter (fun f => decide (f.owner = FleetOwner.ENEMY)) st.fleets)) = l
      generalize sol.coord = c
      clear sol
      induction l generalizing st with
      | nil => rfl
      | cons x xs ih =>
        rw [List.foldl_cons, ih (enemyMoveStep st c x), enemyMoveStep_phase]

theorem enemyPhaseStep_resources (st : GameState) :
    (enemyPhaseStep st).resources = st.resources := by
  unfold enemyPhaseStep
  split
  · dsimp only
    split <;> rfl
  · rename_i sol heq
    dsimp only
    split
    · rfl
    · rename_i hne
      clear hne heq
      generalize (List.map (fun f => f.id) (List.filter (fun f => decide (f.owner = FleetOwner.ENEMY)) st.fleets)) = l
      generalize sol.coord = c
      clear sol
      induction l generalizing st with
      | nil => rfl
      | cons x xs ih =>
        rw [List.foldl_cons, ih (enemyMoveStep st c x), enemyMoveStep_resources]

theorem enemyPhaseStep_galaxy (st : GameState) :
    (enemyPhaseStep st).galaxy = st.galaxy := by
  unfold enemyPhaseStep
  split
  · dsimp only
    split <;> rfl
  · rename_i sol heq
    dsimp only
    split
    · rfl
    · rename_i hne
      clear hne heq
      generalize (List.map (fun f => f.id) (List.filter (fun f => decide (f.owner = FleetOwner.ENEMY)) st.fleets)) = l
      generalize sol.coord = c
      clear sol
      induction l generalizing st with
      | nil => rfl
      | cons x xs ih =>
        rw [List.foldl_cons, ih (enemyMoveStep st c x), enemyMoveStep_galaxy]

theorem turnSummaryLog_turn (st : GameState) : (turnSummaryLog st).turn = st.turn := by
  unfold turnSummaryLog
  dsimp only
  split <;> rfl

theorem turnSummaryLog_phase (st : GameState) : (turnSummaryLog st).phase = st.phase := by
  unfold turnSummaryLog
  dsimp only
  split <;> rfl

theorem turnSummaryLog_resources (st : GameState) :
    (turnSummaryLog st).resources = st.resources := by
  unfold turnSummaryLog
  dsimp only
  split <;> rfl

theorem turnSummaryLog_galaxy (st : GameState) :
    (turnSummaryLog st).galaxy = st.galaxy := by
  unfold turnSummaryLog
  dsimp only
  split <;> rfl

theorem turnSummaryLog_fleets (st : GameState) :
    (turnSummaryLog st).fleets = st.fleets := by
  unfold turnSummaryLog
  dsimp only
  split <;> rfl

/-- Claim C4 (status: confirmed).  `endTurn()` in the PLAYER phase runs its
pipeline in the fixed source order — summary logging, the mining pass, the
switch to ENEMY with enemy move resets, the enemy movement step, then the
turn increment and return to PLAYER with player move resets.  Consequently
the final resources and galaxy (mining credit and field depletion) are
exactly those produced by the mining pass on the pre-enemy-movement state —
mining is credited before any enemy move and the enemy step never touches
the ledger — the turn counter rises by exactly 1, and the phase is PLAYER
again on return.  Outside the PLAYER phase `endTurn()` changes nothing. -/
theorem endTurn_pipeline (st : GameState) :
    (st.phase ≠ .PLAYER → endTurn st = st)
    ∧ (st.phase = .PLAYER →
        endTurn st =
          (let afterMining := applyMiningForPlayerTurn (turnSummaryLog st)
           let enemyStart :=
             pushIntel (resetMovesFor { afterMining with phase := .ENEMY } .ENEMY) .SYSTEM
           let afterEnemy := enemyPhaseStep enemyStart
           pushIntel
             (resetMovesFor { afterEnemy with phase := .PLAYER, turn := afterEnemy.turn + 1 }
               .PLAYER) .SYSTEM)
        ∧ (endTurn st).turn = st.turn + 1
        ∧ (endTurn st).phase = .PLAYER
        ∧ (endTurn st).resources = (applyMiningForPlayerTurn (turnSummaryLog st)).resources
        ∧ (endTurn st).galaxy = (applyMiningForPlayerTurn (turnSummaryLog st)).galaxy) := by
  constructor
  · intro hnp
    unfold endTurn
    rw [if_pos hnp]
  · intro hp
    have hdef : endTurn st =
        (let afterMining := applyMiningForPlayerTurn (turnSummaryLog st)
         let enemyStart :=
           pushIntel (resetMovesFor { afterMining with phase := .ENEMY } .ENEMY) .SYSTEM
         let afterEnemy := enemyPhaseStep enemyStart
         pushIntel
           (resetMovesFor { afterEnemy with phase := .PLAYER, turn := afterEnemy.turn + 1 }
             .PLAYER) .SYSTEM) := by
      unfold endTurn
      rw [if_neg (by simp [hp])]
    refine ⟨hdef, ?_, ?_, ?_, ?_⟩
    · rw [hdef]
      simp only [pushIntel_turn, resetMovesFor_turn, enemyPhaseStep_turn, applyMining_turn,
        turnSummaryLog_turn]
    · rw [hdef]
      simp only [pushIntel_phase, resetMovesFor_phase]
    · rw [hdef]
      simp only [pushIntel_resources, resetMovesFor_resources, enemyPhaseStep_resources]
    · rw [hdef]
      simp only [pushIntel_galaxy, resetMovesFor_galaxy, enemyPhaseStep_galaxy]

/-- Witness for C4: one `endTurn()` from bootstrap advances the turn counter
from 1 to 2, returns in the PLAYER phase, and its ledger equals the mining
pass applied before the enemy step (the miner's +1 T1 credit). -/
theorem endTurn_pipeline_witness :
    (endTurn bootstrapGameState).turn = bootstrapGameState.turn + 1 ∧
    (endTurn bootstrapGameState).phase = .PLAYER ∧
    (endTurn bootstrapGameState).resources =
      (applyMiningForPlayerTurn (turnSummaryLog bootstrapGameState)).resources := by
  have h := (endTurn_pipeline bootstrapGameState).2 (by decide)
  exact ⟨h.2.1, h.2.2.1, h.2.2.2.1⟩

/-! ## Phase preservation across the whole public API (C10) -/

theorem selectSystem_phase (st : GameState) (i : String) :
    (selectSystem st i).phase = st.phase := by
  unfold selectSystem
  repeat' (first | rfl | split | dsimp only)

theorem selectFleet_phase (st : GameState) (i : String) :
    (selectFleet st i).phase = st.phase := by
  unfold selectFleet
  repeat' (first | rfl | split | dsimp only)

theorem moveFleet_phase (st : GameState) (a b : String) :
    (moveFleet st a b).2.phase = st.phase := by
  unfold moveFleet
  repeat' (first | rfl | split | dsimp only)

theorem buildFleet_phase (st : GameState) (k s n : String) :
    (buildFleet st k s n).2.phase = st.phase := by
  unfold buildFleet
  repeat' (first | rfl | split | dsimp only)

theorem buildStation_phase (st : GameState) (s : String) (fr : Bool) (n : String) :
    (buildStation st s fr n).2.phase = st.phase := by
  unfold buildStation
  repeat' (first | rfl | split | dsimp only)

theorem dismantleFleet_phase (st : GameState) (fid : String) :
    (dismantleFleet st fid).2.phase = st.phase := by
  unfold dismantleFleet
  repeat' (first | rfl | split | dsimp only)

theorem mineAsteroid_phase (st : GameState) (s o : String) :
    (mineAsteroid st s o).2.phase = st.phase := by
  unfold mineAsteroid
  repeat' (first | rfl | split | dsimp only)

theorem reinforcePlanet_phase (st : GameState) (p : String) (amt : Int) (o : FleetOwner) :
    (reinforcePlanet st p amt o).2.phase = st.phase := by
  unfold reinforcePlanet
  repeat' (first | rfl | split | dsimp only)

theorem reinforceFromFleet_phase (st : GameState) (s p fl : String) :
    (reinforcePlanetFromFleet st s p fl).2.phase = st.phase := by
  unfold reinforcePlanetFromFleet
  repeat' (first | rfl | split | dsimp only)

theorem startInvasion_phase (st : GameState) (p : String) (n : Int) (o : FleetOwner) :
    (startInvasion st p n o).2.phase = st.phase := by
  unfold startInvasion
  repeat' (first | rfl | split | dsimp only)

theorem createPlanet_phase (st : GameState) (s p : String) (c : PlanetController) (r : Rat) :
    (createPlanet st s p c r).phase = st.phase := by
  unfold createPlanet
  repeat' (first | rfl | split | dsimp only)

theorem invadePlanet_phase (st : GameState) (s p fl : String) (r1 r2 r3 r4 : Rat) :
    (invadePlanet st s p fl r1 r2 r3 r4).2.phase = st.phase := by
  unfold invadePlanet
  repeat' (first | rfl | split | dsimp only)

theorem resolveInvasions_phase (st : GameState) :
    (resolveInvasions st).phase = st.phase := by
  unfold resolveInvasions
  dsimp only
  generalize (List.foldl (fun acc (sys : StarSystem) =>
      acc ++ (sys.planets.filter (fun pr => pr.2.invasion.isSome)).map (fun pr => (sys.id, pr.1)))
    ([] : List (String × String)) st.galaxy) = l
  induction l generalizing st with
  | nil => rfl
  | cons x xs ih =>
    rw [List.foldl_cons]
    rw [ih]
    repeat' (first | rfl | split | dsimp only)

theorem endTurn_phase (st : GameState) : (endTurn st).phase = st.phase := by
  unfold endTurn
  split
  · rfl
  · rename_i h
    simp only [pushIntel_phase, resetMovesFor_phase]
    exact (not_ne_iff.mp h).symm

theorem advanceTurn_phase_player (st : GameState) (hp : st.phase = .PLAYER) :
    (advanceTurn st).phase = .PLAYER := by
  unfold advanceTurn
  rw [if_pos hp, endTurn_phase]
  exact hp

/-- The reachability invariant: the in-memory phase is always PLAYER between
public API calls, and any payload sitting in the save slot was serialized
from a PLAYER-phase state. -/
theorem reachable_phase_inv (w : World) (h : Reachable w) :
    w.state.phase = .PLAYER ∧
    ∀ p, w.store = some (.payload p) → p.phase = .PLAYER := by
  induction h with
  | init =>
    refine ⟨by decide, ?_⟩
    intro p hp
    simp [initWorld] at hp
  | step w a hw ih =>
    obtain ⟨hphase, hstore⟩ := ih
    cases a with
    | moveFleet fid tid => exact ⟨by rw [stepAction, moveFleet_phase]; exact hphase, hstore⟩
    | buildFleet k s n => exact ⟨by rw [stepAction, buildFleet_phase]; exact hphase, hstore⟩
    | buildStation s fr n => exact ⟨by rw [stepAction, buildStation_phase]; exact hphase, hstore⟩
    | dismantleFleet fid => exact ⟨by rw [stepAction, dismantleFleet_phase]; exact hphase, hstore⟩
    | mineAsteroid s o => exact ⟨by rw [stepAction, mineAsteroid_phase]; exact hphase, hstore⟩
    | applyMining => exact ⟨by rw [stepAction, applyMining_phase]; exact hphase, hstore⟩
    | selectSystem i => exact ⟨by rw [stepAction, selectSystem_phase]; exact hphase, hstore⟩
    | selectFleet i => exact ⟨by rw [stepAction, selectFleet_phase]; exact hphase, hstore⟩
    | endTurn => exact ⟨by rw [stepAction, endTurn_phase]; exact hphase, hstore⟩
    | advanceTurn => exact ⟨by rw [stepAction]; exact advanceTurn_phase_player _ hphase, hstore⟩
    | saveGame =>
      refine ⟨by rw [stepAction, pushIntel_phase]; exact hphase, ?_⟩
      intro p hp
      rw [stepAction] at hp
      simp only [Option.some.injEq, StoredPayload.payload.injEq] at hp
      rw [← hp]
      exact hphase
    | loadGame =>
      refine ⟨?_, hstore⟩
      rw [stepAction]
      cases hres : (loadGame w.state w.store).1 with
      | false =>
        rw [(loadGame_cases w.state w.store).1 hres, pushIntel_phase]
        exact hphase
      | true =>
        obtain ⟨p, g, fl, r, hp, -, -, -, -, heq⟩ := (loadGame_cases w.state w.store).2 hres
        rw [heq, pushIntel_phase]
        exact hstore p hp
    | newGame =>
      refine ⟨?_, hstore⟩
      rw [stepAction]
      show bootstrapGameState.phase = GamePhase.PLAYER
      decide
    | reinforcePlanet p amt o =>
      exact ⟨by rw [stepAction, reinforcePlanet_phase]; exact hphase, hstore⟩
    | reinforceFromFleet s p fl =>
      exact ⟨by rw [stepAction, reinforceFromFleet_phase]; exact hphase, hstore⟩
    | startInvasion p n o => exact ⟨by rw [stepAction, startInvasion_phase]; exact hphase, hstore⟩
    | resolveInvasions => exact ⟨by rw [stepAction, resolveInvasions_phase]; exact hphase, hstore⟩
    | createPlanet s p c r => exact ⟨by rw [stepAction, createPlanet_phase]; exact hphase, hstore⟩
    | invadePlanet s p fl r1 r2 r3 r4 =>
      exact ⟨by rw [stepAction, invadePlanet_phase]; exact hphase, hstore⟩

/-- Claim C10 (status: confirmed).  Starting from bootstrap with an empty save
slot, after any sequence of public API actions the in-memory phase is
PLAYER: `endTurn` flips to ENEMY and back within one call, every other
exported mutator preserves the phase, and a `loadGame` can only restore a
snapshot that `saveGame` took of a PLAYER-phase state.  Hence the ENEMY
phase is never observable between calls and the "Not in PLAYER phase"
rejection branches of moveFleet/buildFleet/buildStation/dismantleFleet/
mineAsteroid (each gated on `phase ≠ PLAYER`) are unreachable through the
public API. -/
theorem phase_always_player (w : World) (h : Reachable w) :
    w.state.phase = .PLAYER :=
  (reachable_phase_inv w h).1

/-- Witness for C10: the theorem applied at the bootstrap world. -/
theorem phase_always_player_witness : initWorld.state.phase = .PLAYER :=
  phase_always_player initWorld Reachable.init

end HexFleet

